/-
Verification of the in-app-browser redirect worker (src/worker.js).

The worker is a single request handler with three pure helpers:
`isInAppBrowser`, `getPlatform` and `generateRedirectHTML`, plus the
redirect logic `handleRedirect`.  This file gives a shallow embedding of
those functions and of the JavaScript platform builtins they call
(`String.prototype.split`, `String.prototype.includes`,
`String.prototype.toLowerCase`, `decodeURIComponent`, `JSON.stringify`,
`new URL`), and proves the specification claims about them.

Strings are modelled as Lean `String` (lists of Unicode scalar values);
JavaScript exceptions are modelled with `Except String`.
-/
import Mathlib

set_option maxRecDepth 20000
set_option maxHeartbeats 2000000

deriving instance DecidableEq for Except

/-- `leadsWith p l` is true when the list `l` starts with the pattern `p`
(boolean prefix test used by the substring machinery below). -/
def leadsWith : List Char → List Char → Bool
  | [], _ => true
  | _ :: _, [] => false
  | a :: as, b :: bs => a == b && leadsWith as bs

/-- First-occurrence search: `splitFirst pat l = some (pre, post)` when
`l = pre ++ pat ++ post` and `pat` occurs nowhere earlier; `none` when `pat`
does not occur in `l`.  (For nonempty `pat` this is the primitive behind the
models of `String.prototype.includes` and `String.prototype.split`.) -/
def splitFirst (pat : List Char) : List Char → Option (List Char × List Char)
  | [] => none
  | c :: rest =>
    if leadsWith pat (c :: rest) then some ([], (c :: rest).drop pat.length)
    else (splitFirst pat rest).map (fun p => (c :: p.1, p.2))

/-- Fuel-bounded iteration of `splitFirst`, splitting on every occurrence of
the separator.  Each step consumes at least one character of the input when
the separator is nonempty, so fuel `l.length + 1` always suffices. -/
def splitSeqFuel (sep : List Char) : Nat → List Char → List (List Char)
  | 0, l => [l]
  | fuel + 1, l =>
    match splitFirst sep l with
    | none => [l]
    | some (pre, post) => pre :: splitSeqFuel sep fuel post

/-- Split a character list on every occurrence of a (nonempty) separator. -/
def splitSeq (sep l : List Char) : List (List Char) :=
  splitSeqFuel sep (l.length + 1) l

/-- Model of JavaScript `s.split(sep)` for a nonempty string separator
(`url.pathname.split('/go/')` in src/worker.js line 64). -/
def jsSplit (s sep : String) : List String :=
  (splitSeq sep.data s.data).map String.mk

/-- Model of JavaScript `s.toLowerCase()` as the character-wise simple
lowercase mapping (the in-app and platform markers are all ASCII, where the
two coincide). -/
def jsToLower (s : String) : String :=
  String.mk (s.data.map Char.toLower)

/-- Model of JavaScript `s.includes(pat)` for nonempty `pat`: contiguous
substring containment. -/
def jsIncludes (s pat : String) : Bool :=
  (splitFirst pat.data s.data).isSome

/-- Mathematical statement of contiguous substring containment, used to state
the classification claims independently of the executable search. -/
def containsSub (s pat : String) : Prop :=
  ∃ pre post, s.data = pre ++ pat.data ++ post

/-- The fixed in-app browser marker table (src/worker.js lines 28-37). -/
def inAppBrowsers : List String :=
  ["instagram", "fban", "fbav", "twitter", "line/", "micromessenger", "kakao", "telegram"]

/-- Embedding of `isInAppBrowser` (src/worker.js lines 24-40). -/
def isInAppBrowser (userAgent : String) : Bool :=
  let ua := jsToLower userAgent
  inAppBrowsers.any (fun browser => jsIncludes ua browser)

/-- Embedding of `getPlatform` (src/worker.js lines 45-53). -/
def getPlatform (userAgent : String) : String :=
  let ua := jsToLower userAgent
  if jsIncludes ua "iphone" || jsIncludes ua "ipad" then "ios"
  else if jsIncludes ua "android" then "android"
  else "unknown"

/-- Value of an ASCII hex digit, accepting both cases (used by the
`decodeURIComponent` model). -/
def hexVal (c : Char) : Option Nat :=
  if 48 ≤ c.toNat ∧ c.toNat ≤ 57 then some (c.toNat - 48)
  else if 97 ≤ c.toNat ∧ c.toNat ≤ 102 then some (c.toNat - 87)
  else if 65 ≤ c.toNat ∧ c.toNat ≤ 70 then some (c.toNat - 55)
  else none

/-- Upper-case hex digit for a value below 16 (percent-encoding). -/
def hexDigitUpper : Nat → Char
  | 0 => '0' | 1 => '1' | 2 => '2' | 3 => '3' | 4 => '4' | 5 => '5' | 6 => '6' | 7 => '7'
  | 8 => '8' | 9 => '9' | 10 => 'A' | 11 => 'B' | 12 => 'C' | 13 => 'D' | 14 => 'E'
  | _ => 'F'

/-- Lower-case hex digit for a value below 16 (`JSON.stringify` control-char
escapes). -/
def hexDigitLower : Nat → Char
  | 0 => '0' | 1 => '1' | 2 => '2' | 3 => '3' | 4 => '4' | 5 => '5' | 6 => '6' | 7 => '7'
  | 8 => '8' | 9 => '9' | 10 => 'a' | 11 => 'b' | 12 => 'c' | 13 => 'd' | 14 => 'e'
  | _ => 'f'

/-- UTF-8 byte sequence of a Unicode scalar value. -/
def utf8Bytes (n : Nat) : List Nat :=
  if n < 0x80 then [n]
  else if n < 0x800 then [0xC0 + n / 64, 0x80 + n % 64]
  else if n < 0x10000 then [0xE0 + n / 4096, 0x80 + n / 64 % 64, 0x80 + n % 64]
  else [0xF0 + n / 262144, 0x80 + n / 4096 % 64, 0x80 + n / 64 % 64, 0x80 + n % 64]

/-- Percent-escape of a single byte, upper-case hex as `encodeURIComponent`
produces. -/
def pctEncodeByte (b : Nat) : List Char :=
  ['%', hexDigitUpper (b / 16), hexDigitUpper (b % 16)]

/-- The characters `encodeURIComponent` leaves unescaped:
`A-Z a-z 0-9 - _ . ! ~ * ' ( )`. -/
def isUriUnreserved (c : Char) : Bool :=
  (65 ≤ c.toNat && c.toNat ≤ 90) || (97 ≤ c.toNat && c.toNat ≤ 122) ||
  (48 ≤ c.toNat && c.toNat ≤ 57) ||
  c == '-' || c == '_' || c == '.' || c == '!' || c == '~' || c == '*' ||
  c == '\x27' || c == '(' || c == ')'

/-- Character-list version of the `encodeURIComponent` builtin: unreserved
characters pass through, all others are percent-escaped as UTF-8 bytes. -/
def encodeChars : List Char → List Char
  | [] => []
  | c :: rest =>
    (if isUriUnreserved c then [c] else (utf8Bytes c.toNat).flatMap pctEncodeByte) ++
      encodeChars rest

/-- Model of the JavaScript `encodeURIComponent` builtin, used to state how a
caller percent-encodes a destination into the `/go/` request path. -/
def encodeURIComponent (s : String) : String :=
  String.mk (encodeChars s.data)

/-- First pass of the `decodeURIComponent` model: each `%XX` escape becomes a
byte token (`Sum.inl`), every other character stays a character token
(`Sum.inr`); a `%` not followed by two hex digits is a `URIError`. -/
def tokenize : List Char → Option (List (Sum Nat Char))
  | [] => some []
  | c :: rest =>
    if c = '%' then
      match rest with
      | a :: b :: rest1 =>
        match hexVal a, hexVal b with
        | some x, some y => (tokenize rest1).map (fun ts => Sum.inl (16 * x + y) :: ts)
        | _, _ => none
      | _ => none
    else (tokenize rest).map (fun ts => Sum.inr c :: ts)

/-- Read one UTF-8 continuation byte in the range `[lo, hi)` from the head
of the token list, returning it with the remaining tokens. -/
def decodeCont (lo hi : Nat) : List (Sum Nat Char) → Option (Nat × List (Sum Nat Char))
  | Sum.inl b :: rest => if lo ≤ b ∧ b < hi then some (b, rest) else none
  | _ => none

/-- Second pass of the `decodeURIComponent` model: strict UTF-8 decoding of
the byte tokens (rejecting overlong forms, surrogates and out-of-range lead
bytes, as the ECMAScript `Decode` algorithm does); character tokens pass
through.  The recursion is fuel-bounded; every decoded scalar consumes at
least one token, so any fuel above the token count gives the total
behaviour (see `decodeChars`). -/
def assembleFuel : Nat → List (Sum Nat Char) → Option (List Char)
  | 0, _ => none
  | fuel + 1, ts =>
    match ts with
    | [] => some []
    | Sum.inr c :: rest => (assembleFuel fuel rest).map (fun l => c :: l)
    | Sum.inl b0 :: rest =>
      if b0 < 0x80 then (assembleFuel fuel rest).map (fun l => Char.ofNat b0 :: l)
      else if b0 < 0xC2 then none
      else if b0 < 0xE0 then
        (decodeCont 0x80 0xC0 rest).bind (fun p1 =>
          (assembleFuel fuel p1.2).map
            (fun l => Char.ofNat ((b0 - 0xC0) * 64 + (p1.1 - 0x80)) :: l))
      else if b0 < 0xF0 then
        (decodeCont (if b0 = 0xE0 then 0xA0 else 0x80)
            (if b0 = 0xED then 0xA0 else 0xC0) rest).bind (fun p1 =>
          (decodeCont 0x80 0xC0 p1.2).bind (fun p2 =>
            (assembleFuel fuel p2.2).map
              (fun l =>
                Char.ofNat ((b0 - 0xE0) * 4096 + (p1.1 - 0x80) * 64 + (p2.1 - 0x80)) :: l)))
      else if b0 < 0xF5 then
        (decodeCont (if b0 = 0xF0 then 0x90 else 0x80)
            (if b0 = 0xF4 then 0x90 else 0xC0) rest).bind (fun p1 =>
          (decodeCont 0x80 0xC0 p1.2).bind (fun p2 =>
            (decodeCont 0x80 0xC0 p2.2).bind (fun p3 =>
              (assembleFuel fuel p3.2).map
                (fun l =>
                  Char.ofNat
                    ((b0 - 0xF0) * 262144 + (p1.1 - 0x80) * 4096 + (p2.1 - 0x80) * 64 +
                      (p3.1 - 0x80)) :: l))))
      else none

/-- Character-list version of the `decodeURIComponent` builtin.  The fuel
`l.length + 1` always suffices: there are at most `l.length` tokens, every
decoded scalar consumes at least one of them, and the final empty-list step
uses one more unit. -/
def decodeChars (l : List Char) : Option (List Char) :=
  (tokenize l).bind (assembleFuel (l.length + 1))

/-- Model of the JavaScript `decodeURIComponent` builtin (src/worker.js
line 66): `none` models the thrown `URIError`. -/
def decodeURIComponent (s : String) : Option String :=
  (decodeChars s.data).map String.mk

/-- Escape of one character inside a `JSON.stringify` string literal. -/
def jsonEscapeChar (c : Char) : List Char :=
  if c = '"' then ['\\', '"']
  else if c = '\\' then ['\\', '\\']
  else if c = '\x08' then ['\\', 'b']
  else if c = '\x0c' then ['\\', 'f']
  else if c = '\n' then ['\\', 'n']
  else if c = '\r' then ['\\', 'r']
  else if c = '\t' then ['\\', 't']
  else if c.toNat < 32 then
    ['\\', 'u', '0', '0', hexDigitLower (c.toNat / 16), hexDigitLower (c.toNat % 16)]
  else [c]

/-- Model of the JavaScript `JSON.stringify` builtin applied to a string
(src/worker.js lines 212-213): a double-quoted literal with the standard
escapes. -/
def jsonStringify (s : String) : String :=
  "\"" ++ String.mk (s.data.flatMap jsonEscapeChar) ++ "\""

/-- Decoded value of a single-character JSON escape (`\u` handled
separately). -/
def jsonEscDecode (e : Char) : Option Char :=
  if e = '"' then some '"'
  else if e = '\\' then some '\\'
  else if e = '/' then some '/'
  else if e = 'b' then some '\x08'
  else if e = 'f' then some '\x0c'
  else if e = 'n' then some '\n'
  else if e = 'r' then some '\r'
  else if e = 't' then some '\t'
  else none

/-- Parse the four hex digits of a `\uXXXX` escape, returning the code unit
and the remaining input. -/
def parse4Hex : List Char → Option (Nat × List Char)
  | h1 :: h2 :: h3 :: h4 :: rest =>
    match hexVal h1, hexVal h2, hexVal h3, hexVal h4 with
    | some v1, some v2, some v3, some v4 =>
      some (4096 * v1 + 256 * v2 + 16 * v3 + v4, rest)
    | _, _, _, _ => none
  | _ => none

/-- Parser for the body of a JSON string literal (after the opening quote):
returns the decoded contents and the input remaining after the closing
quote.  Surrogate code units are rejected (surrogate pairs are not needed:
`JSON.stringify` as modelled never emits them).  The recursion is
fuel-bounded; every step consumes at least one input character, so fuel
above the input length gives the total behaviour. -/
def jsonParseLitFuel : Nat → List Char → Option (List Char × List Char)
  | 0, _ => none
  | fuel + 1, l =>
    match l with
    | [] => none
    | c :: rest =>
      if c = '"' then some ([], rest)
      else if c = '\\' then
        match rest with
        | [] => none
        | e :: rest1 =>
          if e = 'u' then
            (parse4Hex rest1).bind (fun p =>
              if p.1 < 0xd800 then
                (jsonParseLitFuel fuel p.2).map (fun q => (Char.ofNat p.1 :: q.1, q.2))
              else none)
          else
            (jsonEscDecode e).bind (fun d =>
              (jsonParseLitFuel fuel rest1).map (fun q => (d :: q.1, q.2)))
      else (jsonParseLitFuel fuel rest).map (fun q => (c :: q.1, q.2))

/-- Parser for the body of a JSON string literal, with sufficient fuel. -/
def jsonParseLit (l : List Char) : Option (List Char × List Char) :=
  jsonParseLitFuel (l.length + 1) l

/-- Parse a complete JSON string literal: an opening quote, escaped contents,
a closing quote, and nothing after it. -/
def jsonParse (s : String) : Option String :=
  match s.data with
  | '"' :: rest =>
    match jsonParseLit rest with
    | some (content, []) => some (String.mk content)
    | _ => none
  | _ => none

/-- Scheme characters allowed after the first letter of a URL scheme. -/
def schemeCharOk (c : Char) : Bool :=
  c.isAlpha || c.isDigit || c == '+' || c == '-' || c == '.'

/-- The WHATWG special schemes that require a nonempty host (`file` is
special too but allows an empty host, so it is treated as accepting). -/
def specialSchemes : List String :=
  ["http", "https", "ws", "wss", "ftp"]

/-- Model of the `new URL(x)` validity test used at src/worker.js lines
81-88 (a platform builtin, not repository code): the string must begin with
an ASCII-letter-led scheme followed by `:`; a special scheme must be
followed by `//` and a nonempty host.  Whitespace stripping and host
normalisation of the full WHATWG parser are not modelled; no claim depends
on them. -/
def isValidAbsoluteURL (s : String) : Bool :=
  match s.data with
  | [] => false
  | c :: rest =>
    let pre := (c :: rest).takeWhile (fun ch => ch != ':')
    let after := (c :: rest).drop (pre.length + 1)
    if !c.isAlpha then false
    else if pre.length = (c :: rest).length then false
    else if !pre.all schemeCharOk then false
    else
      let scheme := String.mk (pre.map Char.toLower)
      if specialSchemes.contains scheme then
        leadsWith ['/', '/'] after &&
          !((after.drop 2).takeWhile
              (fun ch => ch != '/' && ch != '?' && ch != '#' && ch != '\\')).isEmpty
      else true

/-- An HTTP response: status, headers in order, body text. -/
structure Response where
  status : Nat
  headers : List (String × String)
  body : String
deriving DecidableEq

/-- The 400 response for a missing destination (src/worker.js lines 73-78). -/
def missingResponse : Response :=
  { status := 400
    headers := [("Content-Type", "text/plain")]
    body := "Missing destination URL. Use /go/https://example.com or /go/?url=https://example.com" }

/-- The 400 response for an unparsable destination (src/worker.js lines
84-87). -/
def invalidResponse : Response :=
  { status := 400
    headers := [("Content-Type", "text/plain")]
    body := "Invalid destination URL" }

/-- Model of the `Response.redirect(url, 302)` builtin (src/worker.js line
93): status 302, a `Location` header carrying the given URL, empty body.
(The platform re-serialises the URL when building the header; that
normalisation is not modelled.) -/
def redirectResponse (url : String) : Response :=
  { status := 302, headers := [("Location", url)], body := "" }

/-- Headers of the interstitial response (src/worker.js lines 102-105). -/
def interstitialHeaders : List (String × String) :=
  [("Content-Type", "text/html;charset=UTF-8"),
   ("Cache-Control", "no-cache, no-store, must-revalidate")]

/-- Chunks of the template text of `generateRedirectHTML` before the
`${destinationUrl}` interpolation (src/worker.js lines 113-208), split for
tractable reasoning; their concatenation `htmlPart0` is the exact template
prefix, ending with the opening of the manual-fallback anchor. -/
def htmlA1 : String :=
  "<!DOCTYPE html>\n<html lang=\"en\">\n<head>\n    <meta charset=\"UTF-8\">\n    <meta name=\"viewport\" content=\"width=device-width, initial-scale=1.0\">\n    <title>Opening in browser...</title>\n    <style>\n        * \x7b\n            margin: 0;\n            padding:"

/-- Template chunk (continued). -/
def htmlA2 : String :=
  " 0;\n            box-sizing: border-box;\n        \x7d\n        \n        body \x7b\n            font-family: -apple-system, BlinkMacSystemFont, \x27Segoe UI\x27, Roboto, sans-serif;\n            background: linear-gradient(135deg, #667eea 0%, #764ba2 100%);\n         "

/-- Template chunk (continued). -/
def htmlA3 : String :=
  "   min-height: 100vh;\n            display: flex;\n            flex-direction: column;\n            justify-content: center;\n            align-items: center;\n            padding: 20px;\n            color: white;\n        \x7d\n        \n        .container \x7b\n  "

/-- Template chunk (continued). -/
def htmlA4 : String :=
  "          max-width: 500px;\n            text-align: center;\n        \x7d\n        \n        .loader \x7b\n            width: 50px;\n            height: 50px;\n            border: 5px solid rgba(255, 255, 255, 0.3);\n            border-top-color: white;\n         "

/-- Template chunk (continued). -/
def htmlA5 : String :=
  "   border-radius: 50%;\n            animation: spin 1s linear infinite;\n            margin: 0 auto 30px;\n        \x7d\n        \n        @keyframes spin \x7b\n            to \x7b transform: rotate(360deg); \x7d\n        \x7d\n        \n        h1 \x7b\n            font-size: "

/-- Template chunk (continued). -/
def htmlA6 : String :=
  "24px;\n            margin-bottom: 15px;\n            font-weight: 600;\n        \x7d\n        \n        p \x7b\n            font-size: 16px;\n            line-height: 1.6;\n            opacity: 0.9;\n            margin-bottom: 20px;\n        \x7d\n        \n        .manu"

/-- Template chunk (continued). -/
def htmlA7 : String :=
  "al-link \x7b\n            display: inline-block;\n            background: white;\n            color: #667eea;\n            padding: 12px 24px;\n            border-radius: 8px;\n            text-decoration: none;\n            font-weight: 600;\n            margi"

/-- Template chunk (continued). -/
def htmlA8 : String :=
  "n-top: 20px;\n            transition: transform 0.2s;\n        \x7d\n        \n        .manual-link:hover \x7b\n            transform: scale(1.05);\n        \x7d\n        \n        .instructions \x7b\n            margin-top: 30px;\n            padding: 20px;\n            b"

/-- Template chunk (continued). -/
def htmlA9 : String :=
  "ackground: rgba(255, 255, 255, 0.1);\n            border-radius: 12px;\n            font-size: 14px;\n            line-height: 1.8;\n        \x7d\n    </style>\n</head>\n<body>\n    <div class=\"container\">\n        <div class=\"loader\"></div>\n        <h1>Opening "

/-- Template chunk (continued). -/
def htmlA10 : String :=
  "in your browser...</h1>\n        <p>You\x27re being redirected to your default browser for a better experience.</p>\n        \n        <div class=\"instructions\">\n            <strong>If the redirect doesn\x27t work:</strong><br>\n            Tap the <strong>\"\u2022\u2022"

/-- Template chunk (continued). -/
def htmlA11 : String :=
  "\u2022\"</strong> menu at the top and select<br>\n            <strong>\"Open in Browser\"</strong> or <strong>\"Open in Safari/Chrome\"</strong>\n        </div>\n        \n        "

/-- Template chunk (continued). -/
def htmlA12 : String :=
  "<a href=\""

/-- Template text before the `${destinationUrl}` interpolation. -/
def htmlPart0 : String :=
  htmlA1 ++ (htmlA2 ++ (htmlA3 ++ (htmlA4 ++ (htmlA5 ++ (htmlA6 ++ (htmlA7 ++ (htmlA8 ++ (htmlA9 ++ (htmlA10 ++ (htmlA11 ++ (htmlA12)))))))))))

/-- Template text between `${destinationUrl}` and
`${JSON.stringify(destinationUrl)}` (src/worker.js lines 208-212). -/
def htmlPart1 : String :=
  "\" class=\"manual-link\">Continue Manually</a>\n    </div>\n\n    <script>\n        const destinationUrl = "

/-- Template text between the two `JSON.stringify` interpolations
(src/worker.js lines 212-213). -/
def htmlPart2 : String :=
  ";\n        const platform = "

/-- Template chunk after `${JSON.stringify(platform)}` (src/worker.js lines
213-268), containing the embedded script. -/
def htmlD1 : String :=
  ";\n        \n        // Function to attempt redirect\n        function attemptRedirect() \x7b\n            if (platform === \x27android\x27) \x7b\n                // Android: Use intent URL to force external browser\n                const intentUrl = \x27intent://\x27 + des"

/-- Template chunk (continued). -/
def htmlD2 : String :=
  "tinationUrl.replace(/https?:\\/\\//, \x27\x27) + \x27#Intent;end\x27;\n                window.location.href = intentUrl;\n                \n                // Fallback after a delay\n                setTimeout(() => \x7b\n                    window.location.href = destina"

/-- Template chunk (continued). -/
def htmlD3 : String :=
  "tionUrl;\n                \x7d, 500);\n            \x7d else if (platform === \x27ios\x27) \x7b\n                // iOS: Try multiple methods\n                \n                // Method 1: Try googlechrome:// or firefox:// schemes\n                const isChrome = navig"

/-- Template chunk (continued). -/
def htmlD4 : String :=
  "ator.userAgent.includes(\x27CriOS\x27);\n                const isFirefox = navigator.userAgent.includes(\x27FxiOS\x27);\n                \n                if (isChrome) \x7b\n                    const chromeUrl = \x27googlechrome://\x27 + destinationUrl.replace(/https?:\\/\\//"

/-- Template chunk (continued). -/
def htmlD5 : String :=
  ", \x27\x27);\n                    window.location.href = chromeUrl;\n                    setTimeout(() => \x7b\n                        window.location.href = destinationUrl;\n                    \x7d, 500);\n                \x7d else if (isFirefox) \x7b\n                  "

/-- Template chunk (continued). -/
def htmlD6 : String :=
  "  const firefoxUrl = \x27firefox://\x27 + destinationUrl.replace(/https?:\\/\\//, \x27\x27);\n                    window.location.href = firefoxUrl;\n                    setTimeout(() => \x7b\n                        window.location.href = destinationUrl;\n              "

/-- Template chunk (continued). -/
def htmlD7 : String :=
  "      \x7d, 500);\n                \x7d else \x7b\n                    // Default: Try x-safari-https scheme\n                    const safariUrl = \x27x-safari-https://\x27 + destinationUrl.replace(/https?:\\/\\//, \x27\x27);\n                    window.location.href = safari"

/-- Template chunk (continued). -/
def htmlD8 : String :=
  "Url;\n                    setTimeout(() => \x7b\n                        window.location.href = destinationUrl;\n                    \x7d, 500);\n                \x7d\n            \x7d else \x7b\n                // Unknown platform or desktop - just redirect\n            "

/-- Template chunk (continued). -/
def htmlD9 : String :=
  "    window.location.href = destinationUrl;\n            \x7d\n        \x7d\n        \n        // Attempt redirect on load\n        window.addEventListener(\x27load\x27, () => \x7b\n            setTimeout(attemptRedirect, 1000);\n        \x7d);\n        \n        // Also try im"

/-- Template chunk (continued). -/
def htmlD10 : String :=
  "mediately (belt and suspenders approach)\n        attemptRedirect();\n    </script>\n</body>\n</html>"

/-- Template text after `${JSON.stringify(platform)}`. -/
def htmlPart3 : String :=
  htmlD1 ++ (htmlD2 ++ (htmlD3 ++ (htmlD4 ++ (htmlD5 ++ (htmlD6 ++ (htmlD7 ++ (htmlD8 ++ (htmlD9 ++ (htmlD10)))))))))

/-- Embedding of `generateRedirectHTML` (src/worker.js lines 112-269): the
template literal with `destinationUrl` interpolated raw into the anchor
`href` attribute and `JSON.stringify`-encoded into the script. -/
def generateRedirectHTML (destinationUrl platform : String) : String :=
  htmlPart0 ++ destinationUrl ++ htmlPart1 ++ jsonStringify destinationUrl ++
    htmlPart2 ++ jsonStringify platform ++ htmlPart3

/-- The opening of the manual-fallback anchor in the template, up to and
including the `href` attribute's opening quote. -/
def anchorPat : List Char :=
  "<a href=\"".data

/-- What an HTML parser reads as the `href` attribute value of the manual
link: the text after the first `<a href=\"` up to the next double quote. -/
def extractHrefAttr (html : String) : Option String :=
  (splitFirst anchorPat html.data).map
    (fun p => String.mk (p.2.takeWhile (fun c => c != '"')))

/-- Model of `destinationUrl.replace(/https?:\/\//, '')` (src/worker.js
lines 219, 234, 240, 247): remove the first occurrence of `https://` or
`http://` (preferring the longer match at a given position, as the regex
does), leaving the rest unchanged. -/
def stripHttpAux : List Char → List Char
  | [] => []
  | c :: rest =>
    if leadsWith "https://".data (c :: rest) then (c :: rest).drop 8
    else if leadsWith "http://".data (c :: rest) then (c :: rest).drop 7
    else c :: stripHttpAux rest

/-- String version of the scheme-stripping replace in the embedded script. -/
def jsStripHttpScheme (s : String) : String :=
  String.mk (stripHttpAux s.data)

/-- Definition following the spec's words, for comparison with the code:
"the destination with its scheme prefix stripped" — drop everything through
the first `://`. -/
def specStripScheme (s : String) : String :=
  match splitFirst "://".data s.data with
  | some (_, post) => String.mk post
  | none => s

/-- Embedding of the `attemptRedirect` function of the embedded script
(src/worker.js lines 216-257) as the ordered list of navigations it issues,
each with the delay in milliseconds after which it is scheduled.  `ua` is
the client-side `navigator.userAgent` consulted in the iOS branch. -/
def attemptRedirect (destinationUrl platform ua : String) : List (String × Nat) :=
  if platform = "android" then
    [("intent://" ++ jsStripHttpScheme destinationUrl ++ "#Intent;end", 0),
     (destinationUrl, 500)]
  else if platform = "ios" then
    if jsIncludes ua "CriOS" then
      [("googlechrome://" ++ jsStripHttpScheme destinationUrl, 0), (destinationUrl, 500)]
    else if jsIncludes ua "FxiOS" then
      [("firefox://" ++ jsStripHttpScheme destinationUrl, 0), (destinationUrl, 500)]
    else
      [("x-safari-https://" ++ jsStripHttpScheme destinationUrl, 0), (destinationUrl, 500)]
  else [(destinationUrl, 0)]

/-- The `URIError` thrown by `decodeURIComponent` on malformed input. -/
def uriErrorMessage : String := "URIError: URI malformed"

/-- Destination extraction of `handleRedirect` (src/worker.js lines 61-70):
the percent-decoded path remainder after `/go/` when nonempty, otherwise
the `url` query parameter (`urlParam` models `url.searchParams.get('url')`,
already decoded by the URL parser, `none` when absent).  `Except.error`
models the uncaught `URIError` of `decodeURIComponent`. -/
def destCandidate (pathname : String) (urlParam : Option String) :
    Except String (Option String) :=
  let pathParts := jsSplit pathname "/go/"
  if pathParts.length > 1 ∧ pathParts.getD 1 "" ≠ "" then
    match decodeURIComponent (pathParts.getD 1 "") with
    | some s => Except.ok (some s)
    | none => Except.error uriErrorMessage
  else Except.ok urlParam

/-- Embedding of `handleRedirect` (src/worker.js lines 58-107). -/
def handleRedirect (pathname : String) (urlParam : Option String)
    (userAgent : String) : Except String Response :=
  match destCandidate pathname urlParam with
  | Except.error e => Except.error e
  | Except.ok dest =>
    match dest with
    | none => Except.ok missingResponse
    | some destinationUrl =>
      if destinationUrl = "" then Except.ok missingResponse
      else if !isValidAbsoluteURL destinationUrl then Except.ok invalidResponse
      else if !isInAppBrowser userAgent then Except.ok (redirectResponse destinationUrl)
      else
        Except.ok
          { status := 200
            headers := interstitialHeaders
            body := generateRedirectHTML destinationUrl (getPlatform userAgent) }

/-- The projections of `new URL(request.url)` that the worker reads:
`url.pathname` and `url.searchParams.get('url')` (already percent-decoded
by the URL parser, `none` when the parameter is absent). -/
structure RequestURL where
  pathname : String
  urlParam : Option String
deriving DecidableEq

/-- An incoming HTTP request as the worker can observe it. -/
structure Request where
  method : String
  url : RequestURL
  headers : List (String × String)
  body : String
deriving DecidableEq

/-- Model of `request.headers.get(name)`: case-insensitive lookup of the
first matching header. -/
def headerGet (hs : List (String × String)) (name : String) : Option String :=
  (hs.find? (fun p => jsToLower p.1 == jsToLower name)).map (fun p => p.2)

/-- Embedding of the worker's `fetch` entry point (src/worker.js lines
6-19), parametrised by the static-asset collaborator `assets`
(`env.ASSETS.fetch`). -/
def workerFetch (assets : Request → Response) (r : Request) :
    Except String Response :=
  let userAgent := (headerGet r.headers "user-agent").getD ""
  if leadsWith "/go/".data r.url.pathname.data then
    handleRedirect r.url.pathname r.url.urlParam userAgent
  else Except.ok (assets r)

/-! ### Substring machinery -/

theorem leadsWith_iff (p l : List Char) :
    leadsWith p l = true ↔ ∃ t, l = p ++ t := by
  induction p generalizing l with
  | nil => simp [leadsWith]
  | cons a as ih =>
    cases l with
    | nil => simp [leadsWith]
    | cons b bs =>
      simp only [leadsWith, Bool.and_eq_true, beq_iff_eq, ih]
      constructor
      · rintro ⟨rfl, t, rfl⟩; exact ⟨t, rfl⟩
      · rintro ⟨t, h⟩
        injection h with h1 h2
        exact ⟨h1.symm, t, h2⟩

theorem leadsWith_append (p t : List Char) : leadsWith p (p ++ t) = true :=
  (leadsWith_iff p (p ++ t)).mpr ⟨t, rfl⟩

theorem leadsWith_length {p l : List Char} (h : leadsWith p l = true) :
    p.length ≤ l.length := by
  obtain ⟨t, rfl⟩ := (leadsWith_iff p l).mp h
  simp

theorem leadsWith_of_append_le {p l s : List Char}
    (h : leadsWith p (l ++ s) = true) (hle : p.length ≤ l.length) :
    leadsWith p l = true := by
  induction p generalizing l with
  | nil => simp [leadsWith]
  | cons a as ih =>
    cases l with
    | nil => simp at hle
    | cons b bs =>
      simp only [List.cons_append, leadsWith, Bool.and_eq_true] at h ⊢
      exact ⟨h.1, ih h.2 (by simpa using hle)⟩

theorem splitFirst_eq_decomp {pat l pre post : List Char}
    (h : splitFirst pat l = some (pre, post)) : l = pre ++ pat ++ post := by
  induction l generalizing pre with
  | nil => simp [splitFirst] at h
  | cons c rest ih =>
    rw [splitFirst] at h
    by_cases hl : leadsWith pat (c :: rest) = true
    · rw [if_pos hl] at h
      obtain ⟨t, ht⟩ := (leadsWith_iff pat (c :: rest)).mp hl
      injection h with h'
      injection h' with h1 h2
      subst h1
      rw [ht, List.drop_left] at h2
      rw [ht, h2]; rfl
    · rw [if_neg hl] at h
      cases hrec : splitFirst pat rest with
      | none => rw [hrec] at h; simp at h
      | some p =>
        rw [hrec] at h
        obtain ⟨pre', post'⟩ := p
        simp only [Option.map_some'] at h
        injection h with h'
        injection h' with h1 h2
        subst h2
        have := ih hrec
        rw [← h1]
        simp [this]

theorem splitFirst_length_le {pat l pre post : List Char}
    (h : splitFirst pat l = some (pre, post)) : pat.length ≤ l.length := by
  have := splitFirst_eq_decomp h
  subst this
  simp only [List.length_append]
  omega

theorem splitFirst_append {pat l s pre post : List Char}
    (h : splitFirst pat l = some (pre, post)) :
    splitFirst pat (l ++ s) = some (pre, post ++ s) := by
  induction l generalizing pre with
  | nil => simp [splitFirst] at h
  | cons c rest ih =>
    rw [splitFirst] at h
    rw [List.cons_append, splitFirst]
    by_cases hl : leadsWith pat (c :: rest) = true
    · rw [if_pos hl] at h
      obtain ⟨t, ht⟩ := (leadsWith_iff pat (c :: rest)).mp hl
      have hl' : leadsWith pat (c :: (rest ++ s)) = true := by
        rw [show c :: (rest ++ s) = (pat ++ t) ++ s by rw [← ht]; simp]
        rw [List.append_assoc]
        exact leadsWith_append _ _
      rw [if_pos hl']
      injection h with h'
      injection h' with h1 h2
      subst h1
      rw [ht, List.drop_left] at h2
      subst h2
      rw [show c :: (rest ++ s) = (pat ++ t) ++ s by rw [← ht]; simp]
      rw [List.append_assoc, List.drop_left]
    · rw [if_neg hl] at h
      cases hrec : splitFirst pat rest with
      | none => rw [hrec] at h; simp at h
      | some p =>
        rw [hrec] at h
        obtain ⟨pre', post'⟩ := p
        simp only [Option.map_some'] at h
        injection h with h'
        injection h' with h1 h2
        subst h2
        have hlen : pat.length ≤ rest.length := splitFirst_length_le hrec
        have hl2 : ¬ leadsWith pat (c :: (rest ++ s)) = true := by
          intro hcon
          exact hl (leadsWith_of_append_le
            (by simpa using hcon) (by simp; omega))
        rw [if_neg hl2, ih hrec]
        simp [← h1]

theorem splitFirst_self {pat t : List Char} (hp : pat ≠ []) :
    splitFirst pat (pat ++ t) = some ([], t) := by
  cases pat with
  | nil => exact absurd rfl hp
  | cons a as =>
    rw [List.cons_append, splitFirst, if_pos (by exact leadsWith_append (a :: as) t)]
    rw [show a :: (as ++ t) = (a :: as) ++ t from rfl, List.drop_left]

theorem splitFirst_none_cons {pat : List Char} {c : Char} {rest : List Char}
    (h : splitFirst pat (c :: rest) = none) :
    leadsWith pat (c :: rest) = false ∧ splitFirst pat rest = none := by
  rw [splitFirst] at h
  by_cases hl : leadsWith pat (c :: rest) = true
  · rw [if_pos hl] at h; simp at h
  · rw [if_neg hl] at h
    refine ⟨by simpa using hl, ?_⟩
    cases hrec : splitFirst pat rest with
    | none => rfl
    | some p => rw [hrec] at h; simp at h

theorem splitFirst_isSome_iff {pat l : List Char} (hp : pat ≠ []) :
    (splitFirst pat l).isSome = true ↔ ∃ pre post, l = pre ++ pat ++ post := by
  constructor
  · intro h
    cases hs : splitFirst pat l with
    | none => rw [hs] at h; simp at h
    | some p => exact ⟨p.1, p.2, splitFirst_eq_decomp (by rw [hs])⟩
  · rintro ⟨pre, post, rfl⟩
    induction pre with
    | nil => simp [splitFirst_self hp]
    | cons c pre' ih =>
      rw [List.cons_append, List.cons_append, splitFirst]
      by_cases hl : leadsWith pat (c :: (pre' ++ pat ++ post)) = true
      · rw [if_pos hl]; rfl
      · rw [if_neg hl]
        rw [Option.isSome_map']
        simpa using ih

theorem splitFirst_none_of_head {p0 : Char} {ps l : List Char}
    (h : ∀ c ∈ l, c ≠ p0) : splitFirst (p0 :: ps) l = none := by
  induction l with
  | nil => rfl
  | cons c rest ih =>
    have hc : c ≠ p0 := h c (by simp)
    have hl : leadsWith (p0 :: ps) (c :: rest) = false := by
      simp only [leadsWith]
      cases hb : p0 == c with
      | false => simp
      | true => exact absurd ((beq_iff_eq.mp hb)).symm hc
    rw [splitFirst, hl, ih (fun x hx => h x (List.mem_cons_of_mem _ hx))]
    simp

theorem splitSeqFuel_of_none {sep l : List Char} (h : splitFirst sep l = none)
    (fuel : Nat) : splitSeqFuel sep fuel l = [l] := by
  cases fuel with
  | zero => rfl
  | succ f => rw [splitSeqFuel, h]

theorem splitSeq_sep_append {sep t : List Char} (hsep : sep ≠ [])
    (ht : splitFirst sep t = none) : splitSeq sep (sep ++ t) = [[], t] := by
  rw [splitSeq, splitSeqFuel, splitFirst_self hsep]
  show [] :: splitSeqFuel sep (sep ++ t).length t = [[], t]
  rw [splitSeqFuel_of_none ht]

/-! ### Strings -/

theorem string_mk_data (s : String) : String.mk s.data = s := rfl

theorem string_ne_empty_iff {s : String} : s ≠ "" ↔ s.data ≠ [] := by
  constructor
  · intro h hd
    exact h (by cases s with | mk d => cases hd; rfl)
  · intro h hs
    subst hs
    exact h rfl

theorem jsIncludes_iff {s pat : String} (hp : pat ≠ "") :
    jsIncludes s pat = true ↔ containsSub s pat := by
  rw [jsIncludes, containsSub]
  exact splitFirst_isSome_iff (string_ne_empty_iff.mp hp)

/-! ### Destination extraction and handler branches -/

theorem jsSplit_go {rest : String}
    (hno : splitFirst "/go/".data rest.data = none) :
    jsSplit ("/go/" ++ rest) "/go/" = ["", rest] := by
  rw [jsSplit, String.data_append]
  show (splitSeq "/go/".data ("/go/".data ++ rest.data)).map String.mk = _
  rw [splitSeq_sep_append (by decide) hno]
  rfl

theorem destCandidate_path {rest : String}
    (hno : splitFirst "/go/".data rest.data = none) (hne : rest ≠ "")
    (q : Option String) :
    destCandidate ("/go/" ++ rest) q =
      match decodeURIComponent rest with
      | some d => Except.ok (some d)
      | none => Except.error uriErrorMessage := by
  simp only [destCandidate, jsSplit_go hno]
  rw [if_pos]
  · rfl
  · exact ⟨by norm_num, by simpa using hne⟩

theorem destCandidate_empty (q : Option String) :
    destCandidate "/go/" q = Except.ok q := rfl

theorem handleRedirect_error {pathname : String} {q : Option String}
    {ua e : String} (hc : destCandidate pathname q = Except.error e) :
    handleRedirect pathname q ua = Except.error e := by
  rw [handleRedirect, hc]

theorem handleRedirect_missing_none {pathname : String} {q : Option String}
    {ua : String} (hc : destCandidate pathname q = Except.ok none) :
    handleRedirect pathname q ua = Except.ok missingResponse := by
  rw [handleRedirect, hc]

theorem handleRedirect_missing_blank {pathname : String} {q : Option String}
    {ua : String} (hc : destCandidate pathname q = Except.ok (some "")) :
    handleRedirect pathname q ua = Except.ok missingResponse := by
  rw [handleRedirect, hc]
  rfl

theorem handleRedirect_invalid {pathname : String} {q : Option String}
    {ua d : String} (hc : destCandidate pathname q = Except.ok (some d))
    (hne : d ≠ "") (hval : isValidAbsoluteURL d = false) :
    handleRedirect pathname q ua = Except.ok invalidResponse := by
  rw [handleRedirect, hc]
  simp [hne, hval]

theorem handleRedirect_redirect {pathname : String} {q : Option String}
    {ua d : String} (hc : destCandidate pathname q = Except.ok (some d))
    (hne : d ≠ "") (hval : isValidAbsoluteURL d = true)
    (hua : isInAppBrowser ua = false) :
    handleRedirect pathname q ua = Except.ok (redirectResponse d) := by
  rw [handleRedirect, hc]
  simp [hne, hval, hua]

theorem handleRedirect_interstitial {pathname : String} {q : Option String}
    {ua d : String} (hc : destCandidate pathname q = Except.ok (some d))
    (hne : d ≠ "") (hval : isValidAbsoluteURL d = true)
    (hua : isInAppBrowser ua = true) :
    handleRedirect pathname q ua =
      Except.ok
        { status := 200
          headers := interstitialHeaders
          body := generateRedirectHTML d (getPlatform ua) } := by
  rw [handleRedirect, hc]
  simp [hne, hval, hua]

/-! ### Percent-decoding round trip -/

theorem hexVal_hexDigitUpper {n : Nat} (h : n < 16) :
    hexVal (hexDigitUpper n) = some n := by
  interval_cases n <;> rfl

theorem hexVal_hexDigitLower {n : Nat} (h : n < 16) :
    hexVal (hexDigitLower n) = some n := by
  interval_cases n <;> rfl

theorem tokenize_pct {B : Nat} (hB : B < 256) (t : List Char) :
    tokenize (pctEncodeByte B ++ t) = (tokenize t).map (fun ts => Sum.inl B :: ts) := by
  show tokenize ('%' :: hexDigitUpper (B / 16) :: hexDigitUpper (B % 16) :: t) = _
  rw [tokenize, if_pos rfl]
  rw [show hexVal (hexDigitUpper (B / 16)) = some (B / 16) from hexVal_hexDigitUpper (by omega)]
  rw [show hexVal (hexDigitUpper (B % 16)) = some (B % 16) from hexVal_hexDigitUpper (by omega)]
  simp only []
  rw [show 16 * (B / 16) + B % 16 = B by omega]

theorem tokenize_nonpct {c : Char} (hc : c ≠ '%') (t : List Char) :
    tokenize (c :: t) = (tokenize t).map (fun ts => Sum.inr c :: ts) := by
  conv_lhs => rw [tokenize.eq_def]
  simp only [if_neg hc]

theorem tokenize_flatMap_pct {bs : List Nat} (h : ∀ b ∈ bs, b < 256) (t : List Char) :
    tokenize (bs.flatMap pctEncodeByte ++ t) =
      (tokenize t).map (fun ts => bs.map Sum.inl ++ ts) := by
  induction bs with
  | nil =>
    cases hT : tokenize t with
    | none => simp [hT]
    | some ts => simp [hT]
  | cons b bs ih =>
    have hb : b < 256 := h b (by simp)
    have hbs : ∀ x ∈ bs, x < 256 := fun x hx => h x (by simp [hx])
    rw [List.flatMap_cons, List.append_assoc, tokenize_pct hb, ih hbs]
    cases hT : tokenize t with
    | none => simp
    | some ts => simp

theorem utf8Bytes_all_lt {n : Nat} (h : n < 0x110000) :
    ∀ b ∈ utf8Bytes n, b < 256 := by
  intro b hb
  rw [utf8Bytes] at hb
  by_cases h1 : n < 0x80
  · rw [if_pos h1] at hb; simp at hb; omega
  · rw [if_neg h1] at hb
    by_cases h2 : n < 0x800
    · rw [if_pos h2] at hb; simp at hb
      rcases hb with rfl | rfl <;> omega
    · rw [if_neg h2] at hb
      by_cases h3 : n < 0x10000
      · rw [if_pos h3] at hb; simp at hb
        rcases hb with rfl | rfl | rfl <;> omega
      · rw [if_neg h3] at hb; simp at hb
        rcases hb with rfl | rfl | rfl | rfl <;> omega


theorem decodeCont_inl {lo hi b : Nat} (h : lo ≤ b ∧ b < hi) (ts : List (Sum Nat Char)) :
    decodeCont lo hi (Sum.inl b :: ts) = some (b, ts) := by
  rw [decodeCont, if_pos h]

theorem assembleFuel_one {fuel b0 : Nat} (h : b0 < 0x80) (ts : List (Sum Nat Char)) :
    assembleFuel (fuel + 1) (Sum.inl b0 :: ts) =
      (assembleFuel fuel ts).map (fun l => Char.ofNat b0 :: l) := by
  rw [assembleFuel, if_pos h]

theorem assembleFuel_two {fuel b0 b1 : Nat}
    (h0 : ¬ b0 < 0x80) (h1 : ¬ b0 < 0xC2) (h2 : b0 < 0xE0)
    (hb1 : 0x80 ≤ b1 ∧ b1 < 0xC0) (ts : List (Sum Nat Char)) :
    assembleFuel (fuel + 1) (Sum.inl b0 :: Sum.inl b1 :: ts) =
      (assembleFuel fuel ts).map
        (fun l => Char.ofNat ((b0 - 0xC0) * 64 + (b1 - 0x80)) :: l) := by
  rw [assembleFuel, if_neg h0, if_neg h1, if_pos h2, decodeCont_inl hb1]
  rfl

theorem assembleFuel_three {fuel b0 b1 b2 : Nat}
    (h0 : ¬ b0 < 0x80) (h1 : ¬ b0 < 0xC2) (h2 : ¬ b0 < 0xE0) (h3 : b0 < 0xF0)
    (hb1 : (if b0 = 0xE0 then 0xA0 else 0x80) ≤ b1 ∧ b1 < (if b0 = 0xED then 0xA0 else 0xC0))
    (hb2 : 0x80 ≤ b2 ∧ b2 < 0xC0) (ts : List (Sum Nat Char)) :
    assembleFuel (fuel + 1) (Sum.inl b0 :: Sum.inl b1 :: Sum.inl b2 :: ts) =
      (assembleFuel fuel ts).map
        (fun l => Char.ofNat ((b0 - 0xE0) * 4096 + (b1 - 0x80) * 64 + (b2 - 0x80)) :: l) := by
  rw [assembleFuel, if_neg h0, if_neg h1, if_neg h2, if_pos h3, decodeCont_inl hb1]
  show (decodeCont 0x80 0xC0 (Sum.inl b2 :: ts)).bind _ = _
  rw [decodeCont_inl hb2]
  rfl

theorem assembleFuel_four {fuel b0 b1 b2 b3 : Nat}
    (h0 : ¬ b0 < 0x80) (h1 : ¬ b0 < 0xC2) (h2 : ¬ b0 < 0xE0) (h3 : ¬ b0 < 0xF0)
    (h4 : b0 < 0xF5)
    (hb1 : (if b0 = 0xF0 then 0x90 else 0x80) ≤ b1 ∧ b1 < (if b0 = 0xF4 then 0x90 else 0xC0))
    (hb2 : 0x80 ≤ b2 ∧ b2 < 0xC0) (hb3 : 0x80 ≤ b3 ∧ b3 < 0xC0)
    (ts : List (Sum Nat Char)) :
    assembleFuel (fuel + 1) (Sum.inl b0 :: Sum.inl b1 :: Sum.inl b2 :: Sum.inl b3 :: ts) =
      (assembleFuel fuel ts).map
        (fun l =>
          Char.ofNat
            ((b0 - 0xF0) * 262144 + (b1 - 0x80) * 4096 + (b2 - 0x80) * 64 + (b3 - 0x80)) :: l) := by
  rw [assembleFuel, if_neg h0, if_neg h1, if_neg h2, if_neg h3, if_pos h4, decodeCont_inl hb1]
  show (decodeCont 0x80 0xC0 (Sum.inl b2 :: Sum.inl b3 :: ts)).bind _ = _
  rw [decodeCont_inl hb2]
  show (decodeCont 0x80 0xC0 (Sum.inl b3 :: ts)).bind _ = _
  rw [decodeCont_inl hb3]
  rfl

theorem assembleFuel_utf8 {n : Nat} (hval : n.isValidChar) (fuel : Nat)
    (ts : List (Sum Nat Char)) :
    assembleFuel (fuel + 1) ((utf8Bytes n).map Sum.inl ++ ts) =
      (assembleFuel fuel ts).map (fun l => Char.ofNat n :: l) := by
  have hv : n < 0xd800 ∨ (0xdfff < n ∧ n < 0x110000) := hval
  by_cases h1 : n < 0x80
  · rw [utf8Bytes, if_pos h1]
    exact assembleFuel_one h1 ts
  · by_cases h2 : n < 0x800
    · rw [utf8Bytes, if_neg h1, if_pos h2]
      rw [show (([0xC0 + n / 64, 0x80 + n % 64] : List Nat).map Sum.inl ++ ts :
            List (Sum Nat Char)) =
          Sum.inl (0xC0 + n / 64) :: Sum.inl (0x80 + n % 64) :: ts from rfl]
      rw [assembleFuel_two (by omega) (by omega) (by omega) ⟨by omega, by omega⟩]
      simp only [show (0xC0 + n / 64 - 0xC0) * 64 + (0x80 + n % 64 - 0x80) = n by omega]
    · by_cases h3 : n < 0x10000
      · rw [utf8Bytes, if_neg h1, if_neg h2, if_pos h3]
        rw [show (([0xE0 + n / 4096, 0x80 + n / 64 % 64, 0x80 + n % 64] : List Nat).map
              Sum.inl ++ ts : List (Sum Nat Char)) =
            Sum.inl (0xE0 + n / 4096) :: Sum.inl (0x80 + n / 64 % 64) ::
              Sum.inl (0x80 + n % 64) :: ts from rfl]
        have hb1 : (if 0xE0 + n / 4096 = 0xE0 then 0xA0 else 0x80) ≤ 0x80 + n / 64 % 64 ∧
            0x80 + n / 64 % 64 < (if 0xE0 + n / 4096 = 0xED then 0xA0 else 0xC0) := by
          constructor
          · by_cases he : 0xE0 + n / 4096 = 0xE0
            · rw [if_pos he]; omega
            · rw [if_neg he]; omega
          · by_cases he : 0xE0 + n / 4096 = 0xED
            · rw [if_pos he]; omega
            · rw [if_neg he]; omega
        rw [assembleFuel_three (by omega) (by omega) (by omega) (by omega) hb1
          ⟨by omega, by omega⟩]
        simp only [show (0xE0 + n / 4096 - 0xE0) * 4096 + (0x80 + n / 64 % 64 - 0x80) * 64 +
          (0x80 + n % 64 - 0x80) = n by omega]
      · rw [utf8Bytes, if_neg h1, if_neg h2, if_neg h3]
        rw [show (([0xF0 + n / 262144, 0x80 + n / 4096 % 64, 0x80 + n / 64 % 64,
              0x80 + n % 64] : List Nat).map Sum.inl ++ ts : List (Sum Nat Char)) =
            Sum.inl (0xF0 + n / 262144) :: Sum.inl (0x80 + n / 4096 % 64) ::
              Sum.inl (0x80 + n / 64 % 64) :: Sum.inl (0x80 + n % 64) :: ts from rfl]
        have hb1 : (if 0xF0 + n / 262144 = 0xF0 then 0x90 else 0x80) ≤ 0x80 + n / 4096 % 64 ∧
            0x80 + n / 4096 % 64 < (if 0xF0 + n / 262144 = 0xF4 then 0x90 else 0xC0) := by
          constructor
          · by_cases he : 0xF0 + n / 262144 = 0xF0
            · rw [if_pos he]; omega
            · rw [if_neg he]; omega
          · by_cases he : 0xF0 + n / 262144 = 0xF4
            · rw [if_pos he]; omega
            · rw [if_neg he]; omega
        rw [assembleFuel_four (by omega) (by omega) (by omega) (by omega) (by omega) hb1
          ⟨by omega, by omega⟩ ⟨by omega, by omega⟩]
        simp only [show (0xF0 + n / 262144 - 0xF0) * 262144 +
          (0x80 + n / 4096 % 64 - 0x80) * 4096 + (0x80 + n / 64 % 64 - 0x80) * 64 +
          (0x80 + n % 64 - 0x80) = n by omega]

theorem isUriUnreserved_ne_pct {c : Char} (h : isUriUnreserved c = true) : c ≠ '%' := by
  intro he
  subst he
  simp [isUriUnreserved] at h

theorem length_le_encodeChars (l : List Char) : l.length ≤ (encodeChars l).length := by
  induction l with
  | nil => simp [encodeChars]
  | cons c rest ih =>
    rw [encodeChars]
    by_cases hu : isUriUnreserved c = true
    · rw [if_pos hu]
      simp only [List.length_append, List.length_cons, List.length_singleton]
      omega
    · rw [if_neg hu]
      have hne : (utf8Bytes c.toNat).flatMap pctEncodeByte ≠ [] := by
        rw [utf8Bytes]
        split
        · simp [pctEncodeByte]
        · split
          · simp [pctEncodeByte]
          · split <;> simp [pctEncodeByte]
      simp only [List.length_append, List.length_cons]
      have : 0 < ((utf8Bytes c.toNat).flatMap pctEncodeByte).length :=
        List.length_pos.mpr hne
      omega

theorem decode_encode_aux (l : List Char) :
    ∀ fuel : Nat, l.length ≤ fuel →
      ∃ ts, tokenize (encodeChars l) = some ts ∧
        l.length ≤ ts.length ∧ assembleFuel (fuel + 1) ts = some l := by
  induction l with
  | nil =>
    intro fuel _
    exact ⟨[], rfl, by simp, by rw [assembleFuel]⟩
  | cons c rest ih =>
    intro fuel hfuel
    cases fuel with
    | zero => simp at hfuel
    | succ f =>
      obtain ⟨ts, hts, hlen, has⟩ := ih f (by simpa using hfuel)
      by_cases hu : isUriUnreserved c = true
      · refine ⟨Sum.inr c :: ts, ?_, by simpa using hlen, ?_⟩
        · rw [show encodeChars (c :: rest) = c :: encodeChars rest by
            rw [encodeChars, if_pos hu]; rfl]
          rw [tokenize_nonpct (isUriUnreserved_ne_pct hu), hts]
          rfl
        · rw [assembleFuel]
          show (assembleFuel (f + 1) ts).map (fun l => c :: l) = _
          rw [has]
          rfl
      · have hval : c.toNat.isValidChar := c.valid
        have hlt : c.toNat < 0x110000 := by
          rcases hval with h | ⟨ha, hb⟩ <;> omega
        refine ⟨(utf8Bytes c.toNat).map Sum.inl ++ ts, ?_, ?_, ?_⟩
        · rw [show encodeChars (c :: rest) =
              (utf8Bytes c.toNat).flatMap pctEncodeByte ++ encodeChars rest by
            rw [encodeChars, if_neg hu]]
          rw [tokenize_flatMap_pct (utf8Bytes_all_lt hlt), hts]
          rfl
        · have h1 : 1 ≤ (utf8Bytes c.toNat).length := by
            rw [utf8Bytes]
            split
            · simp
            · split
              · simp
              · split <;> simp
          simp only [List.length_append, List.length_map, List.length_cons]
          omega
        · rw [assembleFuel_utf8 hval (f + 1) ts, has]
          rw [Char.ofNat_toNat]
          rfl

theorem decodeChars_encodeChars (l : List Char) :
    decodeChars (encodeChars l) = some l := by
  obtain ⟨ts, hts, _, has⟩ :=
    decode_encode_aux l (encodeChars l).length (length_le_encodeChars l)
  rw [decodeChars, hts]
  exact has

theorem decode_encode_id (s : String) :
    decodeURIComponent (encodeURIComponent s) = some s := by
  rw [decodeURIComponent, encodeURIComponent]
  show (decodeChars (encodeChars s.data)).map String.mk = some s
  rw [decodeChars_encodeChars]
  rfl

/-! ### JSON string-literal round trip -/

theorem jsonParseLitFuel_quote (fuel : Nat) (rest : List Char) :
    jsonParseLitFuel (fuel + 1) ('"' :: rest) = some ([], rest) := by
  conv_lhs => rw [jsonParseLitFuel.eq_def]
  simp

theorem jsonParseLitFuel_esc {e : Char} (he : e ≠ 'u') (fuel : Nat) (rest1 : List Char) :
    jsonParseLitFuel (fuel + 1) ('\\' :: e :: rest1) =
      (jsonEscDecode e).bind (fun d =>
        (jsonParseLitFuel fuel rest1).map (fun q => (d :: q.1, q.2))) := by
  conv_lhs => rw [jsonParseLitFuel.eq_def]
  simp [he]

theorem jsonParseLitFuel_u (fuel : Nat) (rest1 : List Char) :
    jsonParseLitFuel (fuel + 1) ('\\' :: 'u' :: rest1) =
      (parse4Hex rest1).bind (fun p =>
        if p.1 < 0xd800 then
          (jsonParseLitFuel fuel p.2).map (fun q => (Char.ofNat p.1 :: q.1, q.2))
        else none) := by
  conv_lhs => rw [jsonParseLitFuel.eq_def]
  simp

theorem jsonParseLitFuel_plain {c : Char} (h1 : c ≠ '"') (h2 : c ≠ '\\')
    (fuel : Nat) (rest : List Char) :
    jsonParseLitFuel (fuel + 1) (c :: rest) =
      (jsonParseLitFuel fuel rest).map (fun q => (c :: q.1, q.2)) := by
  conv_lhs => rw [jsonParseLitFuel.eq_def]
  simp [h1, h2]

theorem parse4Hex_control {n : Nat} (hn : n < 256) (t : List Char) :
    parse4Hex ('0' :: '0' :: hexDigitLower (n / 16) :: hexDigitLower (n % 16) :: t) =
      some (n, t) := by
  rw [parse4Hex]
  rw [show hexVal '0' = some 0 from rfl,
    hexVal_hexDigitLower (show n / 16 < 16 by omega),
    hexVal_hexDigitLower (show n % 16 < 16 by omega)]
  simp only []
  rw [show 4096 * 0 + 256 * 0 + 16 * (n / 16) + n % 16 = n by omega]

theorem jsonParseLitFuel_escapeChar (c : Char) (t : List Char) (F : Nat) :
    jsonParseLitFuel (F + 1) (jsonEscapeChar c ++ t) =
      (jsonParseLitFuel F t).map (fun q => (c :: q.1, q.2)) := by
  by_cases h1 : c = '"'
  · subst h1
    rw [show jsonEscapeChar '"' = ['\\', '"'] from rfl]
    rw [show (['\\', '"'] : List Char) ++ t = '\\' :: '"' :: t from rfl]
    rw [jsonParseLitFuel_esc (by decide)]
    rfl
  by_cases h2 : c = '\\'
  · subst h2
    rw [show jsonEscapeChar '\\' = ['\\', '\\'] from rfl]
    rw [show (['\\', '\\'] : List Char) ++ t = '\\' :: '\\' :: t from rfl]
    rw [jsonParseLitFuel_esc (by decide)]
    rfl
  by_cases h3 : c = '\x08'
  · subst h3
    rw [show jsonEscapeChar '\x08' = ['\\', 'b'] from rfl]
    rw [show (['\\', 'b'] : List Char) ++ t = '\\' :: 'b' :: t from rfl]
    rw [jsonParseLitFuel_esc (by decide)]
    rfl
  by_cases h4 : c = '\x0c'
  · subst h4
    rw [show jsonEscapeChar '\x0c' = ['\\', 'f'] from rfl]
    rw [show (['\\', 'f'] : List Char) ++ t = '\\' :: 'f' :: t from rfl]
    rw [jsonParseLitFuel_esc (by decide)]
    rfl
  by_cases h5 : c = '\n'
  · subst h5
    rw [show jsonEscapeChar '\n' = ['\\', 'n'] from rfl]
    rw [show (['\\', 'n'] : List Char) ++ t = '\\' :: 'n' :: t from rfl]
    rw [jsonParseLitFuel_esc (by decide)]
    rfl
  by_cases h6 : c = '\r'
  · subst h6
    rw [show jsonEscapeChar '\r' = ['\\', 'r'] from rfl]
    rw [show (['\\', 'r'] : List Char) ++ t = '\\' :: 'r' :: t from rfl]
    rw [jsonParseLitFuel_esc (by decide)]
    rfl
  by_cases h7 : c = '\t'
  · subst h7
    rw [show jsonEscapeChar '\t' = ['\\', 't'] from rfl]
    rw [show (['\\', 't'] : List Char) ++ t = '\\' :: 't' :: t from rfl]
    rw [jsonParseLitFuel_esc (by decide)]
    rfl
  rw [jsonEscapeChar, if_neg h1, if_neg h2, if_neg h3, if_neg h4, if_neg h5, if_neg h6,
    if_neg h7]
  by_cases h8 : c.toNat < 32
  · rw [if_pos h8]
    rw [show ('\\' :: 'u' :: '0' :: '0' :: hexDigitLower (c.toNat / 16) ::
          hexDigitLower (c.toNat % 16) :: []) ++ t =
        '\\' :: 'u' :: '0' :: '0' :: hexDigitLower (c.toNat / 16) ::
          hexDigitLower (c.toNat % 16) :: t from rfl]
    rw [jsonParseLitFuel_u, parse4Hex_control (by omega)]
    simp only [Option.some_bind]
    rw [if_pos (by omega : c.toNat < 0xd800)]
    simp only [Char.ofNat_toNat]
  · rw [if_neg h8]
    rw [show ([c] : List Char) ++ t = c :: t from rfl]
    exact jsonParseLitFuel_plain h1 h2 F t

theorem jsonParseLitFuel_encoded (l : List Char) :
    ∀ fuel : Nat, l.length ≤ fuel → ∀ r : List Char,
      jsonParseLitFuel (fuel + 1) (l.flatMap jsonEscapeChar ++ ('"' :: r)) = some (l, r) := by
  induction l with
  | nil =>
    intro fuel _ r
    exact jsonParseLitFuel_quote fuel r
  | cons c rest ih =>
    intro fuel hfuel r
    cases fuel with
    | zero => simp at hfuel
    | succ f =>
      rw [List.flatMap_cons, List.append_assoc, jsonParseLitFuel_escapeChar,
        ih f (by simpa using hfuel) r]
      rfl

theorem length_le_jsonEscaped (l : List Char) :
    l.length ≤ (l.flatMap jsonEscapeChar).length := by
  induction l with
  | nil => simp
  | cons c rest ih =>
    rw [List.flatMap_cons]
    have h1 : 1 ≤ (jsonEscapeChar c).length := by
      rw [jsonEscapeChar]
      split
      · simp
      all_goals split
      all_goals first
        | simp
        | (split
           all_goals first
             | simp
             | (split
                all_goals first
                  | simp
                  | (split
                     all_goals first
                       | simp
                       | (split
                          all_goals first
                            | simp
                            | (split
                               all_goals first
                                 | simp
                                 | (split <;> simp))))))
    simp only [List.length_append, List.length_cons]
    omega

theorem jsonParse_jsonStringify (s : String) :
    jsonParse (jsonStringify s) = some s := by
  have hdata : (jsonStringify s).data =
      '"' :: (s.data.flatMap jsonEscapeChar ++ ('"' :: [])) := by
    rw [jsonStringify, String.data_append, String.data_append]
    rfl
  rw [jsonParse, hdata]
  have hlen : s.data.length ≤ (s.data.flatMap jsonEscapeChar ++ ('"' :: [])).length := by
    have := length_le_jsonEscaped s.data
    simp only [List.length_append, List.length_cons, List.length_nil]
    omega
  show (match jsonParseLit (s.data.flatMap jsonEscapeChar ++ ('"' :: [])) with
        | some (content, []) => some (String.mk content)
        | _ => none) = some s
  rw [jsonParseLit,
    jsonParseLitFuel_encoded s.data _ hlen []]

/-! ### Attribute extraction, scheme stripping, misc -/

theorem takeWhile_append_stop {p : Char → Bool} {l1 : List Char}
    (hall : ∀ c ∈ l1, p c = true) {q : Char} (hq : p q = false) (u : List Char) :
    (l1 ++ q :: u).takeWhile p = l1 := by
  induction l1 with
  | nil => simp [List.takeWhile_cons, hq]
  | cons c rest ih =>
    rw [List.cons_append, List.takeWhile_cons, if_pos (hall c (by simp))]
    rw [ih (fun x hx => hall x (by simp [hx]))]

theorem hexDigitUpper_ne_slash (m : Nat) : hexDigitUpper m ≠ '/' := by
  rw [hexDigitUpper.eq_def]
  split <;> decide

theorem encodeChars_no_slash (l : List Char) : ∀ c ∈ encodeChars l, c ≠ '/' := by
  induction l with
  | nil => simp [encodeChars]
  | cons c rest ih =>
    intro x hx
    rw [encodeChars] at hx
    rw [List.mem_append] at hx
    rcases hx with hx | hx
    · by_cases hu : isUriUnreserved c = true
      · rw [if_pos hu] at hx
        simp only [List.mem_singleton] at hx
        subst hx
        intro he
        subst he
        simp [isUriUnreserved] at hu
      · rw [if_neg hu] at hx
        rw [List.mem_flatMap] at hx
        obtain ⟨b, _, hb⟩ := hx
        rw [pctEncodeByte] at hb
        simp only [List.mem_cons, List.mem_singleton, List.not_mem_nil] at hb
        rcases hb with rfl | rfl | rfl | h
        · decide
        · exact hexDigitUpper_ne_slash _
        · exact hexDigitUpper_ne_slash _
        · exact absurd h (by simp)
    · exact ih x hx

theorem splitFirst_go_encodeChars (l : List Char) :
    splitFirst "/go/".data (encodeChars l) = none := by
  show splitFirst ('/' :: "go/".data) (encodeChars l) = none
  exact splitFirst_none_of_head (encodeChars_no_slash l)

theorem encodeChars_ne_nil {l : List Char} (h : l ≠ []) : encodeChars l ≠ [] := by
  cases l with
  | nil => exact absurd rfl h
  | cons c rest =>
    rw [encodeChars]
    by_cases hu : isUriUnreserved c = true
    · rw [if_pos hu]; simp
    · rw [if_neg hu]
      intro hcon
      rw [List.append_eq_nil] at hcon
      have h1 := hcon.1
      rw [List.flatMap_eq_nil_iff] at h1
      have hne : (utf8Bytes c.toNat) ≠ [] := by
        rw [utf8Bytes]
        split
        · simp
        · split
          · simp
          · split <;> simp
      cases hb : utf8Bytes c.toNat with
      | nil => exact hne hb
      | cons b bs =>
        have := h1 b (by rw [hb]; simp)
        simp [pctEncodeByte] at this

theorem stripHttpAux_https {l : List Char} (h : leadsWith "https://".data l = true) :
    stripHttpAux l = l.drop 8 := by
  cases l with
  | nil => exact absurd h (by decide)
  | cons c rest => rw [stripHttpAux, if_pos h]

theorem stripHttpAux_http {l : List Char} (hns : leadsWith "https://".data l = false)
    (h : leadsWith "http://".data l = true) : stripHttpAux l = l.drop 7 := by
  cases l with
  | nil => exact absurd h (by decide)
  | cons c rest => rw [stripHttpAux, if_neg (by simp [hns]), if_pos h]

theorem stripHttpAux_id {l : List Char}
    (h1 : splitFirst "https://".data l = none)
    (h2 : splitFirst "http://".data l = none) : stripHttpAux l = l := by
  induction l with
  | nil => rfl
  | cons c rest ih =>
    have hc1 := splitFirst_none_cons h1
    have hc2 := splitFirst_none_cons h2
    rw [stripHttpAux, if_neg (by simp [hc1.1]), if_neg (by simp [hc2.1]),
      ih hc1.2 hc2.2]

theorem containsSub_append_left (s t pat : String) (h : containsSub t pat) :
    containsSub (s ++ t) pat := by
  obtain ⟨pre, post, hd⟩ := h
  exact ⟨s.data ++ pre, post, by rw [String.data_append, hd]; simp⟩



/-! ### Locating the anchor attribute in the template -/

theorem leadsWith_eq_take {pat l : List Char} :
    leadsWith pat l = true ↔ pat.length ≤ l.length ∧ l.take pat.length = pat := by
  rw [leadsWith_iff]
  constructor
  · rintro ⟨t, rfl⟩
    exact ⟨by simp, List.take_left _ _⟩
  · rintro ⟨hlen, htake⟩
    refine ⟨l.drop pat.length, ?_⟩
    conv_lhs => rw [← List.take_append_drop pat.length l]
    rw [htake]

theorem take_append_window {A B : List Char} {m k : Nat} (h : m ≤ A.length + k) :
    (A ++ B).take m = (A ++ B.take k).take m := by
  rw [List.take_append_eq_append_take, List.take_append_eq_append_take, List.take_take]
  congr 1
  rw [min_eq_left (by omega)]

theorem splitFirst_chunk {pat : List Char} (hp : pat ≠ []) {A B : List Char}
    (h : splitFirst pat (A ++ B.take (pat.length - 1)) = none) :
    splitFirst pat (A ++ B) = (splitFirst pat B).map (fun p => (A ++ p.1, p.2)) := by
  induction A with
  | nil =>
    cases hs : splitFirst pat B <;> simp [hs]
  | cons c A2 ih =>
    rw [List.cons_append] at h
    have hc := splitFirst_none_cons h
    have hplen : 1 ≤ pat.length := List.length_pos.mpr hp
    have hlw : ¬ leadsWith pat (c :: (A2 ++ B)) = true := by
      intro hcon
      rw [leadsWith_eq_take] at hcon
      obtain ⟨hlen, htake⟩ := hcon
      have hwin : leadsWith pat (c :: (A2 ++ B.take (pat.length - 1))) = true := by
        rw [leadsWith_eq_take]
        constructor
        · simp only [List.length_cons, List.length_append, List.length_take] at hlen ⊢
          omega
        · have heq : (c :: (A2 ++ B)).take pat.length =
              (c :: (A2 ++ B.take (pat.length - 1))).take pat.length := by
            show ((c :: A2) ++ B).take pat.length =
              ((c :: A2) ++ B.take (pat.length - 1)).take pat.length
            apply take_append_window
            simp only [List.length_cons, List.length_append] at hlen ⊢
            omega
          rw [← heq, htake]
      rw [hc.1] at hwin
      exact Bool.false_ne_true hwin
    rw [List.cons_append, splitFirst, if_neg hlw, ih hc.2]
    cases hs : splitFirst pat B <;> simp [hs]

theorem takeWhile_append_quote {p : Char → Bool} {q : Char} (hq : p q = false)
    (X u : List Char) : (X ++ q :: u).takeWhile p = X.takeWhile p := by
  induction X with
  | nil => simp [List.takeWhile_cons, hq]
  | cons c X2 ih =>
    rw [List.cons_append, List.takeWhile_cons, List.takeWhile_cons]
    by_cases hcp : p c = true
    · rw [if_pos hcp, if_pos hcp, ih]
    · rw [if_neg hcp, if_neg hcp]

theorem containsSub_append_right (s t pat : String) (h : containsSub s pat) :
    containsSub (s ++ t) pat := by
  obtain ⟨pre, post, hd⟩ := h
  exact ⟨pre, post ++ t.data, by rw [String.data_append, hd]; simp⟩

theorem splitFirst_anchor_prefix (S : List Char) :
    ∃ pre, splitFirst anchorPat (htmlPart0.data ++ S) = some (pre, S) := by
  have hdec : htmlPart0.data ++ S = (htmlA1.data ++ (htmlA2.data ++ (htmlA3.data ++ (htmlA4.data ++ (htmlA5.data ++ (htmlA6.data ++ (htmlA7.data ++ (htmlA8.data ++ (htmlA9.data ++ (htmlA10.data ++ (htmlA11.data ++ (anchorPat ++ S)))))))))))) := by
    rw [htmlPart0]
    simp only [String.data_append, List.append_assoc]
    rfl
  rw [hdec]
  have h12 : splitFirst anchorPat (anchorPat ++ S) = some ([], S) :=
    splitFirst_self (by decide)
  have w11 : List.take (anchorPat.length - 1) (anchorPat ++ S) = List.take 8 anchorPat := by
    rw [show anchorPat.length - 1 = 8 from rfl]
    exact List.take_append_of_le_length (by decide)
  have n11 : splitFirst anchorPat (htmlA11.data ++ List.take 8 anchorPat) = none := by decide
  have h11 : splitFirst anchorPat (htmlA11.data ++ (anchorPat ++ S)) =
      some (htmlA11.data ++ [], S) := by
    rw [splitFirst_chunk (by decide) (by rw [w11]; exact n11), h12]
    rfl
  have w10 : List.take (anchorPat.length - 1) (htmlA11.data ++ (anchorPat ++ S)) = List.take 8 htmlA11.data := by
    rw [show anchorPat.length - 1 = 8 from rfl]
    exact List.take_append_of_le_length (by decide)
  have n10 : splitFirst anchorPat (htmlA10.data ++ List.take 8 htmlA11.data) = none := by decide
  have h10 : splitFirst anchorPat (htmlA10.data ++ (htmlA11.data ++ (anchorPat ++ S))) =
      some (htmlA10.data ++ (htmlA11.data ++ []), S) := by
    rw [splitFirst_chunk (by decide) (by rw [w10]; exact n10), h11]
    rfl
  have w9 : List.take (anchorPat.length - 1) (htmlA10.data ++ (htmlA11.data ++ (anchorPat ++ S))) = List.take 8 htmlA10.data := by
    rw [show anchorPat.length - 1 = 8 from rfl]
    exact List.take_append_of_le_length (by decide)
  have n9 : splitFirst anchorPat (htmlA9.data ++ List.take 8 htmlA10.data) = none := by decide
  have h9 : splitFirst anchorPat (htmlA9.data ++ (htmlA10.data ++ (htmlA11.data ++ (anchorPat ++ S)))) =
      some (htmlA9.data ++ (htmlA10.data ++ (htmlA11.data ++ [])), S) := by
    rw [splitFirst_chunk (by decide) (by rw [w9]; exact n9), h10]
    rfl
  have w8 : List.take (anchorPat.length - 1) (htmlA9.data ++ (htmlA10.data ++ (htmlA11.data ++ (anchorPat ++ S)))) = List.take 8 htmlA9.data := by
    rw [show anchorPat.length - 1 = 8 from rfl]
    exact List.take_append_of_le_length (by decide)
  have n8 : splitFirst anchorPat (htmlA8.data ++ List.take 8 htmlA9.data) = none := by decide
  have h8 : splitFirst anchorPat (htmlA8.data ++ (htmlA9.data ++ (htmlA10.data ++ (htmlA11.data ++ (anchorPat ++ S))))) =
      some (htmlA8.data ++ (htmlA9.data ++ (htmlA10.data ++ (htmlA11.data ++ []))), S) := by
    rw [splitFirst_chunk (by decide) (by rw [w8]; exact n8), h9]
    rfl
  have w7 : List.take (anchorPat.length - 1) (htmlA8.data ++ (htmlA9.data ++ (htmlA10.data ++ (htmlA11.data ++ (anchorPat ++ S))))) = List.take 8 htmlA8.data := by
    rw [show anchorPat.length - 1 = 8 from rfl]
    exact List.take_append_of_le_length (by decide)
  have n7 : splitFirst anchorPat (htmlA7.data ++ List.take 8 htmlA8.data) = none := by decide
  have h7 : splitFirst anchorPat (htmlA7.data ++ (htmlA8.data ++ (htmlA9.data ++ (htmlA10.data ++ (htmlA11.data ++ (anchorPat ++ S)))))) =
      some (htmlA7.data ++ (htmlA8.data ++ (htmlA9.data ++ (htmlA10.data ++ (htmlA11.data ++ [])))), S) := by
    rw [splitFirst_chunk (by decide) (by rw [w7]; exact n7), h8]
    rfl
  have w6 : List.take (anchorPat.length - 1) (htmlA7.data ++ (htmlA8.data ++ (htmlA9.data ++ (htmlA10.data ++ (htmlA11.data ++ (anchorPat ++ S)))))) = List.take 8 htmlA7.data := by
    rw [show anchorPat.length - 1 = 8 from rfl]
    exact List.take_append_of_le_length (by decide)
  have n6 : splitFirst anchorPat (htmlA6.data ++ List.take 8 htmlA7.data) = none := by decide
  have h6 : splitFirst anchorPat (htmlA6.data ++ (htmlA7.data ++ (htmlA8.data ++ (htmlA9.data ++ (htmlA10.data ++ (htmlA11.data ++ (anchorPat ++ S))))))) =
      some (htmlA6.data ++ (htmlA7.data ++ (htmlA8.data ++ (htmlA9.data ++ (htmlA10.data ++ (htmlA11.data ++ []))))), S) := by
    rw [splitFirst_chunk (by decide) (by rw [w6]; exact n6), h7]
    rfl
  have w5 : List.take (anchorPat.length - 1) (htmlA6.data ++ (htmlA7.data ++ (htmlA8.data ++ (htmlA9.data ++ (htmlA10.data ++ (htmlA11.data ++ (anchorPat ++ S))))))) = List.take 8 htmlA6.data := by
    rw [show anchorPat.length - 1 = 8 from rfl]
    exact List.take_append_of_le_length (by decide)
  have n5 : splitFirst anchorPat (htmlA5.data ++ List.take 8 htmlA6.data) = none := by decide
  have h5 : splitFirst anchorPat (htmlA5.data ++ (htmlA6.data ++ (htmlA7.data ++ (htmlA8.data ++ (htmlA9.data ++ (htmlA10.data ++ (htmlA11.data ++ (anchorPat ++ S)))))))) =
      some (htmlA5.data ++ (htmlA6.data ++ (htmlA7.data ++ (htmlA8.data ++ (htmlA9.data ++ (htmlA10.data ++ (htmlA11.data ++ [])))))), S) := by
    rw [splitFirst_chunk (by decide) (by rw [w5]; exact n5), h6]
    rfl
  have w4 : List.take (anchorPat.length - 1) (htmlA5.data ++ (htmlA6.data ++ (htmlA7.data ++ (htmlA8.data ++ (htmlA9.data ++ (htmlA10.data ++ (htmlA11.data ++ (anchorPat ++ S)))))))) = List.take 8 htmlA5.data := by
    rw [show anchorPat.length - 1 = 8 from rfl]
    exact List.take_append_of_le_length (by decide)
  have n4 : splitFirst anchorPat (htmlA4.data ++ List.take 8 htmlA5.data) = none := by decide
  have h4 : splitFirst anchorPat (htmlA4.data ++ (htmlA5.data ++ (htmlA6.data ++ (htmlA7.data ++ (htmlA8.data ++ (htmlA9.data ++ (htmlA10.data ++ (htmlA11.data ++ (anchorPat ++ S))))))))) =
      some (htmlA4.data ++ (htmlA5.data ++ (htmlA6.data ++ (htmlA7.data ++ (htmlA8.data ++ (htmlA9.data ++ (htmlA10.data ++ (htmlA11.data ++ []))))))), S) := by
    rw [splitFirst_chunk (by decide) (by rw [w4]; exact n4), h5]
    rfl
  have w3 : List.take (anchorPat.length - 1) (htmlA4.data ++ (htmlA5.data ++ (htmlA6.data ++ (htmlA7.data ++ (htmlA8.data ++ (htmlA9.data ++ (htmlA10.data ++ (htmlA11.data ++ (anchorPat ++ S))))))))) = List.take 8 htmlA4.data := by
    rw [show anchorPat.length - 1 = 8 from rfl]
    exact List.take_append_of_le_length (by decide)
  have n3 : splitFirst anchorPat (htmlA3.data ++ List.take 8 htmlA4.data) = none := by decide
  have h3 : splitFirst anchorPat (htmlA3.data ++ (htmlA4.data ++ (htmlA5.data ++ (htmlA6.data ++ (htmlA7.data ++ (htmlA8.data ++ (htmlA9.data ++ (htmlA10.data ++ (htmlA11.data ++ (anchorPat ++ S)))))))))) =
      some (htmlA3.data ++ (htmlA4.data ++ (htmlA5.data ++ (htmlA6.data ++ (htmlA7.data ++ (htmlA8.data ++ (htmlA9.data ++ (htmlA10.data ++ (htmlA11.data ++ [])))))))), S) := by
    rw [splitFirst_chunk (by decide) (by rw [w3]; exact n3), h4]
    rfl
  have w2 : List.take (anchorPat.length - 1) (htmlA3.data ++ (htmlA4.data ++ (htmlA5.data ++ (htmlA6.data ++ (htmlA7.data ++ (htmlA8.data ++ (htmlA9.data ++ (htmlA10.data ++ (htmlA11.data ++ (anchorPat ++ S)))))))))) = List.take 8 htmlA3.data := by
    rw [show anchorPat.length - 1 = 8 from rfl]
    exact List.take_append_of_le_length (by decide)
  have n2 : splitFirst anchorPat (htmlA2.data ++ List.take 8 htmlA3.data) = none := by decide
  have h2 : splitFirst anchorPat (htmlA2.data ++ (htmlA3.data ++ (htmlA4.data ++ (htmlA5.data ++ (htmlA6.data ++ (htmlA7.data ++ (htmlA8.data ++ (htmlA9.data ++ (htmlA10.data ++ (htmlA11.data ++ (anchorPat ++ S))))))))))) =
      some (htmlA2.data ++ (htmlA3.data ++ (htmlA4.data ++ (htmlA5.data ++ (htmlA6.data ++ (htmlA7.data ++ (htmlA8.data ++ (htmlA9.data ++ (htmlA10.data ++ (htmlA11.data ++ []))))))))), S) := by
    rw [splitFirst_chunk (by decide) (by rw [w2]; exact n2), h3]
    rfl
  have w1 : List.take (anchorPat.length - 1) (htmlA2.data ++ (htmlA3.data ++ (htmlA4.data ++ (htmlA5.data ++ (htmlA6.data ++ (htmlA7.data ++ (htmlA8.data ++ (htmlA9.data ++ (htmlA10.data ++ (htmlA11.data ++ (anchorPat ++ S))))))))))) = List.take 8 htmlA2.data := by
    rw [show anchorPat.length - 1 = 8 from rfl]
    exact List.take_append_of_le_length (by decide)
  have n1 : splitFirst anchorPat (htmlA1.data ++ List.take 8 htmlA2.data) = none := by decide
  have h1 : splitFirst anchorPat (htmlA1.data ++ (htmlA2.data ++ (htmlA3.data ++ (htmlA4.data ++ (htmlA5.data ++ (htmlA6.data ++ (htmlA7.data ++ (htmlA8.data ++ (htmlA9.data ++ (htmlA10.data ++ (htmlA11.data ++ (anchorPat ++ S)))))))))))) =
      some (htmlA1.data ++ (htmlA2.data ++ (htmlA3.data ++ (htmlA4.data ++ (htmlA5.data ++ (htmlA6.data ++ (htmlA7.data ++ (htmlA8.data ++ (htmlA9.data ++ (htmlA10.data ++ (htmlA11.data ++ [])))))))))), S) := by
    rw [splitFirst_chunk (by decide) (by rw [w1]; exact n1), h2]
    rfl
  exact ⟨_, h1⟩

theorem extractHrefAttr_general (d p : String) :
    extractHrefAttr (generateRedirectHTML d p) =
      some (String.mk (d.data.takeWhile (fun c => c != '"'))) := by
  have ht1 : htmlPart1.data = '"' :: htmlPart1.data.tail := by decide
  have base : (generateRedirectHTML d p).data =
      htmlPart0.data ++ (d.data ++ (htmlPart1.data ++ ((jsonStringify d).data ++
        (htmlPart2.data ++ ((jsonStringify p).data ++ htmlPart3.data))))) := by
    rw [generateRedirectHTML]
    simp only [String.data_append, List.append_assoc]
  obtain ⟨pre, hpre⟩ := splitFirst_anchor_prefix (d.data ++ ('"' ::
    (htmlPart1.data.tail ++ ((jsonStringify d).data ++
      (htmlPart2.data ++ ((jsonStringify p).data ++ htmlPart3.data))))))
  rw [extractHrefAttr, base, ht1]
  simp only [List.cons_append]
  rw [hpre]
  simp only [Option.map_some']
  rw [takeWhile_append_quote (by decide)]

theorem takeWhile_all_id {p : Char → Bool} {l : List Char} (h : ∀ c ∈ l, p c = true) :
    l.takeWhile p = l :=
  List.takeWhile_eq_self_iff.mpr h

/-! ### The claims -/

/-- C1: for every identification (user-agent) string, `isInAppBrowser`
returns true if and only if the lower-cased string contains one of the
fixed markers `instagram`, `fban`, `fbav`, `twitter`, `line/`,
`micromessenger`, `kakao`, `telegram`; every other string, including the
empty string used when the header is absent, yields false. -/
theorem C1_in_app_classification (ua : String) :
    (isInAppBrowser ua = true ↔ ∃ m ∈ inAppBrowsers, containsSub (jsToLower ua) m) ∧
    isInAppBrowser "" = false := by
  constructor
  · simp only [isInAppBrowser, List.any_eq_true]
    constructor
    · rintro ⟨m, hm, hinc⟩
      have hmne : m ≠ "" := by fin_cases hm <;> decide
      exact ⟨m, hm, (jsIncludes_iff hmne).mp hinc⟩
    · rintro ⟨m, hm, hcon⟩
      have hmne : m ≠ "" := by fin_cases hm <;> decide
      exact ⟨m, hm, (jsIncludes_iff hmne).mpr hcon⟩
  · decide

/-- Witness for C1 at concrete inputs. -/
theorem C1_in_app_classification_witness :
    isInAppBrowser "Mozilla/5.0 (iPhone) Instagram 250.0" = true ∧
    isInAppBrowser "" = false :=
  ⟨(C1_in_app_classification "Mozilla/5.0 (iPhone) Instagram 250.0").1.mpr
      ⟨"instagram", by decide, (jsIncludes_iff (by decide)).mp (by decide)⟩,
   (C1_in_app_classification "x").2⟩

/-- C4: `getPlatform` returns `ios` iff the lower-cased string contains
`iphone` or `ipad`, `android` iff it contains `android` and no iOS marker,
and `unknown` otherwise; the iOS markers are evaluated first, so a string
containing both kinds of markers classifies as `ios`. -/
theorem C4_platform_classification (ua : String) :
    (getPlatform ua = "ios" ↔
      (containsSub (jsToLower ua) "iphone" ∨ containsSub (jsToLower ua) "ipad")) ∧
    (getPlatform ua = "android" ↔
      (containsSub (jsToLower ua) "android" ∧
        ¬(containsSub (jsToLower ua) "iphone" ∨ containsSub (jsToLower ua) "ipad"))) ∧
    (getPlatform ua = "unknown" ↔
      (¬(containsSub (jsToLower ua) "iphone" ∨ containsSub (jsToLower ua) "ipad") ∧
        ¬containsSub (jsToLower ua) "android")) ∧
    ((containsSub (jsToLower ua) "iphone" ∨ containsSub (jsToLower ua) "ipad") →
      containsSub (jsToLower ua) "android" → getPlatform ua = "ios") := by
  have hip := @jsIncludes_iff (jsToLower ua) "iphone" (by decide)
  have hpad := @jsIncludes_iff (jsToLower ua) "ipad" (by decide)
  have hand := @jsIncludes_iff (jsToLower ua) "android" (by decide)
  simp only [getPlatform]
  by_cases hIOS : (jsIncludes (jsToLower ua) "iphone" || jsIncludes (jsToLower ua) "ipad") = true
  · rw [if_pos hIOS]
    rw [Bool.or_eq_true] at hIOS
    have hiosProp : containsSub (jsToLower ua) "iphone" ∨ containsSub (jsToLower ua) "ipad" := by
      rcases hIOS with h | h
      · exact Or.inl (hip.mp h)
      · exact Or.inr (hpad.mp h)
    refine ⟨⟨fun _ => hiosProp, fun _ => rfl⟩, ?_, ?_, fun _ _ => rfl⟩
    · exact ⟨fun h => absurd h (by decide), fun h => absurd hiosProp h.2⟩
    · exact ⟨fun h => absurd h (by decide), fun h => absurd hiosProp h.1⟩
  · rw [if_neg hIOS]
    rw [Bool.or_eq_true] at hIOS
    have hnios : ¬(containsSub (jsToLower ua) "iphone" ∨ containsSub (jsToLower ua) "ipad") := by
      rintro (h | h)
      · exact hIOS (Or.inl (hip.mpr h))
      · exact hIOS (Or.inr (hpad.mpr h))
    by_cases hA : jsIncludes (jsToLower ua) "android" = true
    · rw [if_pos hA]
      have handProp := hand.mp hA
      refine ⟨⟨fun h => absurd h (by decide), fun h => absurd h hnios⟩,
        ⟨fun _ => ⟨handProp, hnios⟩, fun _ => rfl⟩,
        ⟨fun h => absurd h (by decide), fun h => absurd handProp h.2⟩,
        fun h _ => absurd h hnios⟩
    · rw [if_neg hA]
      have hnand : ¬containsSub (jsToLower ua) "android" := fun h => hA (hand.mpr h)
      exact ⟨⟨fun h => absurd h (by decide), fun h => absurd h hnios⟩,
        ⟨fun h => absurd h (by decide), fun h => absurd h.1 hnand⟩,
        ⟨fun _ => ⟨hnios, hnand⟩, fun _ => rfl⟩,
        fun h _ => absurd h hnios⟩

/-- Witness for C4 at concrete inputs, including one carrying both an
iPhone and an Android marker. -/
theorem C4_platform_classification_witness :
    getPlatform "iPhone; Android 11" = "ios" ∧
    getPlatform "Linux; Android 11" = "android" := by
  constructor
  · exact (C4_platform_classification "iPhone; Android 11").2.2.2
      (Or.inl ((jsIncludes_iff (by decide)).mp (by decide)))
      ((jsIncludes_iff (by decide)).mp (by decide))
  · refine (C4_platform_classification "Linux; Android 11").2.1.mpr
      ⟨(jsIncludes_iff (by decide)).mp (by decide), ?_⟩
    rintro (h | h)
    · exact absurd ((jsIncludes_iff (by decide)).mpr h) (by decide)
    · exact absurd ((jsIncludes_iff (by decide)).mpr h) (by decide)

/-- C5: for a `/go/`-prefixed path whose remainder does not itself contain
`/go/` (the precondition the spec flags), the destination candidate is the
percent-decoded nonempty path remainder — a decode failure raising the
`URIError` — and only for an empty remainder the `url` query parameter;
when neither source yields a non-empty value the handler returns the
missing-destination error. -/
theorem C5_destination_extraction (rest : String) (urlParam : Option String)
    (ua : String) (hno : splitFirst "/go/".data rest.data = none) :
    (rest ≠ "" →
      destCandidate ("/go/" ++ rest) urlParam =
        (match decodeURIComponent rest with
         | some d => Except.ok (some d)
         | none => Except.error uriErrorMessage)) ∧
    (rest = "" → destCandidate ("/go/" ++ rest) urlParam = Except.ok urlParam) ∧
    (rest = "" → (urlParam = none ∨ urlParam = some "") →
      handleRedirect ("/go/" ++ rest) urlParam ua = Except.ok missingResponse) := by
  refine ⟨fun hne => destCandidate_path hno hne urlParam, ?_, ?_⟩
  · rintro rfl
    rw [show ("/go/" ++ "" : String) = "/go/" by simp]
    exact destCandidate_empty urlParam
  · rintro rfl hq
    rw [show ("/go/" ++ "" : String) = "/go/" by simp]
    rcases hq with rfl | rfl
    · exact handleRedirect_missing_none (destCandidate_empty none)
    · exact handleRedirect_missing_blank (destCandidate_empty (some ""))

/-- Witness for C5 at concrete inputs: path-based extraction with
percent-decoding, and the 400 missing-destination response for `/go/`. -/
theorem C5_destination_extraction_witness :
    destCandidate ("/go/" ++ "https%3A%2F%2Fexample.com") none =
      Except.ok (some "https://example.com") ∧
    handleRedirect ("/go/" ++ "") none "Mozilla" = Except.ok missingResponse := by
  constructor
  · rw [(C5_destination_extraction "https%3A%2F%2Fexample.com" none "Mozilla"
      (by decide)).1 (by decide)]
    decide
  · exact (C5_destination_extraction "" none "Mozilla" (by decide)).2.2 rfl (Or.inl rfl)

/-- C6: for every redirect request with a valid extracted destination and
an identification string not classified as in-app, the response is the
`Response.redirect` value: status 302, `Location` equal to the
destination, and an empty body (no interstitial document). -/
theorem C6_direct_redirect (pathname : String) (urlParam : Option String)
    (ua d : String) (hc : destCandidate pathname urlParam = Except.ok (some d))
    (hne : d ≠ "") (hval : isValidAbsoluteURL d = true)
    (hua : isInAppBrowser ua = false) :
    handleRedirect pathname urlParam ua = Except.ok (redirectResponse d) ∧
    (redirectResponse d).status = 302 ∧
    (redirectResponse d).headers = [("Location", d)] ∧
    (redirectResponse d).body = "" :=
  ⟨handleRedirect_redirect hc hne hval hua, rfl, rfl, rfl⟩

/-- Witness for C6 at a concrete request. -/
theorem C6_direct_redirect_witness :
    handleRedirect "/go/https%3A%2F%2Fexample.com" none "Mozilla/5.0" =
      Except.ok (redirectResponse "https://example.com") :=
  (C6_direct_redirect "/go/https%3A%2F%2Fexample.com" none "Mozilla/5.0"
    "https://example.com" (by decide) (by decide) (by decide) (by decide)).1

/-- C7: percent-encoding any destination (also ones containing `?`, `&`,
`#` or quotes) into the path after `/go/` and extracting it through the
handler's path-based decoding yields exactly the original destination. -/
theorem C7_percent_roundtrip (d : String) (urlParam : Option String) (hne : d ≠ "") :
    destCandidate ("/go/" ++ encodeURIComponent d) urlParam = Except.ok (some d) ∧
    decodeURIComponent (encodeURIComponent d) = some d := by
  refine ⟨?_, decode_encode_id d⟩
  have hno : splitFirst "/go/".data (encodeURIComponent d).data = none :=
    splitFirst_go_encodeChars d.data
  have hne2 : encodeURIComponent d ≠ "" := by
    rw [string_ne_empty_iff]
    exact encodeChars_ne_nil (string_ne_empty_iff.mp hne)
  rw [destCandidate_path hno hne2 urlParam, decode_encode_id d]

/-- Witness for C7 at the spec's example destination, whose encoding
carries `%3A`, `%2F` and `%3F` escapes. -/
theorem C7_percent_roundtrip_witness :
    destCandidate ("/go/" ++ encodeURIComponent "https://example.com/path?a=1") none =
      Except.ok (some "https://example.com/path?a=1") ∧
    encodeURIComponent "https://example.com/path?a=1" =
      "https%3A%2F%2Fexample.com%2Fpath%3Fa%3D1" :=
  ⟨(C7_percent_roundtrip "https://example.com/path?a=1" none (by decide)).1, by decide⟩

/-- C9: for every redirect request with a valid destination whose
identification string is classified as in-app, the response has status
200, `Content-Type: text/html;charset=UTF-8`,
`Cache-Control: no-cache, no-store, must-revalidate`, and its body is the
interstitial document for that destination and platform. -/
theorem C9_interstitial_response (pathname : String) (urlParam : Option String)
    (ua d : String) (hc : destCandidate pathname urlParam = Except.ok (some d))
    (hne : d ≠ "") (hval : isValidAbsoluteURL d = true)
    (hua : isInAppBrowser ua = true) :
    handleRedirect pathname urlParam ua =
      Except.ok
        { status := 200
          headers := interstitialHeaders
          body := generateRedirectHTML d (getPlatform ua) } ∧
    interstitialHeaders =
      [("Content-Type", "text/html;charset=UTF-8"),
       ("Cache-Control", "no-cache, no-store, must-revalidate")] :=
  ⟨handleRedirect_interstitial hc hne hval hua, rfl⟩

/-- Witness for C9 at a concrete in-app request. -/
theorem C9_interstitial_response_witness :
    handleRedirect "/go/https%3A%2F%2Fexample.com" none "Instagram" =
      Except.ok
        { status := 200
          headers := interstitialHeaders
          body := generateRedirectHTML "https://example.com" (getPlatform "Instagram") } :=
  (C9_interstitial_response "/go/https%3A%2F%2Fexample.com" none "Instagram"
    "https://example.com" (by decide) (by decide) (by decide) (by decide)).1

/-- C2 counterexample: the destination `https://example.com/"` is accepted
by URL validation, yet the `href` attribute an HTML parser reads from the
generated interstitial is the destination truncated at the quote — the raw
interpolation into the attribute breaks the markup, refuting the claim
that the destination is safely embedded in the link attribute. -/
theorem C2_embedding_counterexample :
    isValidAbsoluteURL "https://example.com/\"" = true ∧
    extractHrefAttr (generateRedirectHTML "https://example.com/\"" "android") =
      some "https://example.com/" ∧
    ("https://example.com/" : String) ≠ "https://example.com/\"" := by
  refine ⟨by decide, ?_, by decide⟩
  rw [extractHrefAttr_general]
  decide

/-- C2 (amended): the script literal embedding is safe for every
destination — the `JSON.stringify` encoding parses back to exactly the
original string — but the HTML link attribute receives the destination
unescaped: the parsed `href` value is the destination truncated at its
first double quote, so it equals the destination only when the destination
contains no double quote. -/
theorem C2_embedding_amended (d p : String) :
    jsonParse (jsonStringify d) = some d ∧
    extractHrefAttr (generateRedirectHTML d p) =
      some (String.mk (d.data.takeWhile (fun c => c != '"'))) ∧
    ((∀ c ∈ d.data, c ≠ '"') → extractHrefAttr (generateRedirectHTML d p) = some d) := by
  refine ⟨jsonParse_jsonStringify d, extractHrefAttr_general d p, fun hq => ?_⟩
  rw [extractHrefAttr_general, takeWhile_all_id (fun c hc => by simpa using hq c hc)]

/-- Witness for the amended C2 at a concrete quote-free destination. -/
theorem C2_embedding_amended_witness :
    jsonParse (jsonStringify "https://example.com") = some "https://example.com" ∧
    extractHrefAttr (generateRedirectHTML "https://example.com" "android") =
      some "https://example.com" :=
  ⟨(C2_embedding_amended "https://example.com" "android").1,
   (C2_embedding_amended "https://example.com" "android").2.2 (by decide)⟩

/-- C3 counterexample: the request path `/go/%` has a non-empty remainder
that is not a missing destination and never reaches URL validation, yet
the handler neither succeeds nor returns one of the two 400 responses — it
raises the uncaught `URIError` from `decodeURIComponent`, an error
category the claim says does not exist. -/
theorem C3_failure_semantics_counterexample :
    handleRedirect "/go/%" none "" = Except.error uriErrorMessage ∧
    Except.error uriErrorMessage ≠ (Except.ok missingResponse : Except String Response) ∧
    Except.error uriErrorMessage ≠ (Except.ok invalidResponse : Except String Response) := by
  decide

/-- C3 (amended): on the redirect path the handler returns the 400
missing-destination response exactly when extraction yields no non-empty
candidate, the 400 invalid-destination response exactly when the non-empty
candidate fails URL validation, and succeeds (302 or 200) otherwise —
except that a non-empty path remainder with malformed percent-encoding
raises the uncaught `URIError` of `decodeURIComponent`, an additional
failure mode the original claim excluded.  The 400 responses are
`text/plain` and the missing-destination body names both accepted URL
forms. -/
theorem C3_failure_semantics_amended (rest : String) (urlParam : Option String)
    (ua : String) :
    (handleRedirect ("/go/" ++ rest) urlParam ua = Except.error uriErrorMessage ↔
      destCandidate ("/go/" ++ rest) urlParam = Except.error uriErrorMessage) ∧
    (handleRedirect ("/go/" ++ rest) urlParam ua = Except.ok missingResponse ↔
      (destCandidate ("/go/" ++ rest) urlParam = Except.ok none ∨
        destCandidate ("/go/" ++ rest) urlParam = Except.ok (some ""))) ∧
    (∀ d, destCandidate ("/go/" ++ rest) urlParam = Except.ok (some d) → d ≠ "" →
      ((handleRedirect ("/go/" ++ rest) urlParam ua = Except.ok invalidResponse ↔
          isValidAbsoluteURL d = false) ∧
        (isValidAbsoluteURL d = true →
          handleRedirect ("/go/" ++ rest) urlParam ua = Except.ok (redirectResponse d) ∨
          handleRedirect ("/go/" ++ rest) urlParam ua =
            Except.ok
              { status := 200
                headers := interstitialHeaders
                body := generateRedirectHTML d (getPlatform ua) }))) ∧
    missingResponse.status = 400 ∧
    missingResponse.headers = [("Content-Type", "text/plain")] ∧
    jsIncludes missingResponse.body "/go/https://example.com" = true ∧
    jsIncludes missingResponse.body "/go/?url=https://example.com" = true ∧
    invalidResponse.status = 400 ∧
    invalidResponse.headers = [("Content-Type", "text/plain")] ∧
    invalidResponse.body = "Invalid destination URL" := by
  refine ⟨?_, ?_, ?_, by decide, by decide, by decide, by decide, by decide, by decide,
    by decide⟩
  · cases hdc : destCandidate ("/go/" ++ rest) urlParam with
    | error e =>
      rw [handleRedirect_error hdc]
      constructor
      · intro h
        injection h with h2
        rw [h2]
      · intro h
        injection h with h2
        rw [h2]
    | ok dest =>
      match dest with
      | none => rw [handleRedirect_missing_none hdc]; simp
      | some d0 =>
        by_cases hne : d0 = ""
        · subst hne
          rw [handleRedirect_missing_blank hdc]
          simp
        · by_cases hval : isValidAbsoluteURL d0 = true
          · by_cases hua : isInAppBrowser ua = true
            · rw [handleRedirect_interstitial hdc hne hval hua]; simp
            · rw [handleRedirect_redirect hdc hne hval (by simpa using hua)]; simp
          · rw [handleRedirect_invalid hdc hne (by simpa using hval)]; simp
  · cases hdc : destCandidate ("/go/" ++ rest) urlParam with
    | error e =>
      rw [handleRedirect_error hdc]
      constructor
      · intro h; exact absurd h (by simp)
      · rintro (h | h) <;> simp at h
    | ok dest =>
      match dest with
      | none =>
        rw [handleRedirect_missing_none hdc]
        exact ⟨fun _ => Or.inl rfl, fun _ => rfl⟩
      | some d0 =>
        by_cases hne : d0 = ""
        · subst hne
          rw [handleRedirect_missing_blank hdc]
          exact ⟨fun _ => Or.inr rfl, fun _ => rfl⟩
        · constructor
          · intro h
            exfalso
            by_cases hval : isValidAbsoluteURL d0 = true
            · by_cases hua : isInAppBrowser ua = true
              · rw [handleRedirect_interstitial hdc hne hval hua] at h
                have hst := congrArg Response.status ((Except.ok.injEq _ _).mp h)
                simp [missingResponse] at hst
              · rw [handleRedirect_redirect hdc hne hval (by simpa using hua)] at h
                have hst := congrArg Response.status ((Except.ok.injEq _ _).mp h)
                simp [missingResponse, redirectResponse] at hst
            · rw [handleRedirect_invalid hdc hne (by simpa using hval)] at h
              have hst := congrArg Response.body ((Except.ok.injEq _ _).mp h)
              exact absurd hst (by decide)
          · rintro (h | h)
            · simp at h
            · have hd0 : d0 = "" := by simpa using h
              exact absurd hd0 hne
  · intro d hd hne
    have hdc : destCandidate ("/go/" ++ rest) urlParam = Except.ok (some d) := hd
    constructor
    · by_cases hval : isValidAbsoluteURL d = true
      · rw [hval]
        constructor
        · intro h
          exfalso
          by_cases hua : isInAppBrowser ua = true
          · rw [handleRedirect_interstitial hdc hne hval hua] at h
            have hst := congrArg Response.status ((Except.ok.injEq _ _).mp h)
            simp [invalidResponse] at hst
          · rw [handleRedirect_redirect hdc hne hval (by simpa using hua)] at h
            have hst := congrArg Response.status ((Except.ok.injEq _ _).mp h)
            simp [invalidResponse, redirectResponse] at hst
        · intro h
          exact absurd h (by decide)
      · rw [handleRedirect_invalid hdc hne (by simpa using hval)]
        simp [Bool.not_eq_true] at hval
        exact ⟨fun _ => hval, fun _ => rfl⟩
    · intro hvt
      by_cases hua : isInAppBrowser ua = true
      · exact Or.inr (handleRedirect_interstitial hdc hne hvt hua)
      · exact Or.inl (handleRedirect_redirect hdc hne hvt (by simpa using hua))

/-- Witness for the amended C3: the bare `/go/` path with no query
parameter produces the 400 missing-destination response. -/
theorem C3_failure_semantics_amended_witness :
    handleRedirect ("/go/" ++ "") none "" = Except.ok missingResponse :=
  ((C3_failure_semantics_amended "" none "").2.1).mpr (Or.inl (by decide))

/-- C8 counterexample: the valid destination `ftp://example.com` keeps its
scheme prefix in the intent URL the android branch of the embedded script
constructs — the `replace(/https?:\/\//, '')` only removes an `http(s)://`
occurrence — refuting the claim that the intent URL is the destination
with its scheme prefix stripped (`specStripScheme` states the claim's
words). -/
theorem C8_android_intent_counterexample :
    isValidAbsoluteURL "ftp://example.com" = true ∧
    attemptRedirect "ftp://example.com" "android" "" =
      [("intent://ftp://example.com#Intent;end", 0), ("ftp://example.com", 500)] ∧
    ("intent://ftp://example.com#Intent;end" : String) ≠
      "intent://" ++ specStripScheme "ftp://example.com" ++ "#Intent;end" := by
  refine ⟨by decide, by decide, by decide⟩

/-- C8 (amended): for platform `android` the embedded script navigates to
`intent://` followed by the destination with its first occurrence of
`https://` or `http://` removed (a destination containing neither is
passed through unchanged), followed by `#Intent;end`, and schedules a
fallback plain navigation to the unmodified destination after 500 ms; the
interstitial document indeed contains the `intent://` construction. -/
theorem C8_android_intent_amended (d ua : String) :
    attemptRedirect d "android" ua =
      [("intent://" ++ jsStripHttpScheme d ++ "#Intent;end", 0), (d, 500)] ∧
    (leadsWith "https://".data d.data = true →
      jsStripHttpScheme d = String.mk (d.data.drop 8)) ∧
    (leadsWith "https://".data d.data = false →
      leadsWith "http://".data d.data = true →
      jsStripHttpScheme d = String.mk (d.data.drop 7)) ∧
    (splitFirst "https://".data d.data = none →
      splitFirst "http://".data d.data = none → jsStripHttpScheme d = d) ∧
    containsSub (generateRedirectHTML d "android") "intent://" := by
  refine ⟨rfl, ?_, ?_, ?_, ?_⟩
  · intro h
    rw [jsStripHttpScheme, stripHttpAux_https h]
  · intro h1 h2
    rw [jsStripHttpScheme, stripHttpAux_http h1 h2]
  · intro h1 h2
    rw [jsStripHttpScheme, stripHttpAux_id h1 h2]
  · have h1 : containsSub htmlD1 "intent://" :=
      (jsIncludes_iff (by decide)).mp (by decide)
    have h2 : containsSub htmlPart3 "intent://" :=
      containsSub_append_right htmlD1 _ _ h1
    exact containsSub_append_left _ htmlPart3 _ h2

/-- Witness for the amended C8 at a concrete https destination. -/
theorem C8_android_intent_amended_witness :
    attemptRedirect "https://example.com" "android" "Instagram" =
      [("intent://example.com#Intent;end", 0), ("https://example.com", 500)] := by
  have h := C8_android_intent_amended "https://example.com" "Instagram"
  rw [h.1, h.2.1 (by decide)]
  decide

/-- C10: two requests to a `/go/`-prefixed path with the same request URL
and the same (case-insensitively looked-up) user-agent header value get
identical responses: the method, all other headers and the body have no
effect on redirect handling. -/
theorem C10_request_determinism (assets : Request → Response) (r1 r2 : Request)
    (hurl : r1.url = r2.url)
    (hua : headerGet r1.headers "user-agent" = headerGet r2.headers "user-agent")
    (hgo : leadsWith "/go/".data r1.url.pathname.data = true) :
    workerFetch assets r1 = workerFetch assets r2 := by
  simp only [workerFetch]
  rw [hurl, hua]
  have hgo2 : leadsWith "/go/".data r2.url.pathname.data = true := by
    rw [← hurl]; exact hgo
  rw [if_pos hgo2, if_pos hgo2]

/-- Witness for C10: a GET and a POST to the same `/go/` URL with the same
user-agent (spelled with different header-name capitalisation), different
extra headers and different bodies. -/
theorem C10_request_determinism_witness :
    workerFetch (fun _ => { status := 200, headers := [], body := "static" })
      { method := "GET"
        url := { pathname := "/go/https%3A%2F%2Fexample.com", urlParam := none }
        headers := [("User-Agent", "Instagram")]
        body := "" } =
    workerFetch (fun _ => { status := 200, headers := [], body := "static" })
      { method := "POST"
        url := { pathname := "/go/https%3A%2F%2Fexample.com", urlParam := none }
        headers := [("user-agent", "Instagram"), ("X-Extra", "1")]
        body := "body" } :=
  C10_request_determinism _ _ _ rfl (by decide) (by decide)
